import Mathlib

/-!
# Exam Sources Navigator: database resolver and offline cache controller

A shallow embedding of `src/app.js` (the database resolver: `loadDb`, the
`dbFile` import handler, the `btnResetDb` reset handler, `normalizeBaseUrl`,
the start of `main`) and of `src/sw.js` (the install, activate and fetch
handlers of the service worker), with the properties stated about them.

Conventions of the embedding.

* JavaScript values that come out of `JSON.parse` are the inductive type
  `Json`. `undefined` (the result of reading a missing property) is
  `none : Option Json`.
* `JSON.parse`, `JSON.stringify` belong to the host, not to the repository:
  they are the fields of a `Platform`. `JsonRef.platform` is a concrete
  codec used where a closed example has to be evaluated.
* `localStorage` is a function `String → Option String` (`getItem`), updated
  pointwise by `setItem` and `removeItem`. The write of the import handler
  (line 246), which carries a whole database, may exceed the quota: whether
  it completes is an argument (`stored`). The writes of the short values
  (lines 96, 226 and 297) are taken to complete.
* An `async` function is embedded as the function from the state before to
  the state after, together with its completion (normal or thrown) and the
  list of observable events it performed; the result of the single `fetch`
  a run can make is an argument.
* The DOM side of `fillSelect` and `render` is a parameter (`Dom`): only
  whether it completes or throws is visible to the modelled state.
* The import handler is given the text of the chosen file: `file.text()` is
  taken to fulfil.
* A cache of the service worker is keyed by request URL without its
  fragment (the host compares the URLs of requests with the fragments left
  out), an asset's URL being written as in `ASSETS`; the deletions that
  `activate` starts together are made in the order of `caches.keys()`.
-/

namespace Diotk

/-! ## JSON values and the JavaScript operations the code applies to them -/

/-- A value produced by `JSON.parse`. Numbers are the integers: the only
number operation of the embedded code is `Set.prototype.has` at `1` and at
`67`, for which every other number behaves alike. An object is the list of
its own properties; a property is read at its first occurrence. -/
inductive Json where
  | null : Json
  | bool (b : Bool) : Json
  | num (n : Int) : Json
  | str (s : String) : Json
  | arr (xs : List Json) : Json
  | obj (kvs : List (String × Json)) : Json

/-- What a JavaScript evaluation can throw. `error msg` is `new Error(msg)`
thrown by the repository's own code; the other four come from the host. -/
inductive JsError where
  | syntaxError : JsError
  | typeError : JsError
  | networkError : JsError
  | quotaExceeded : JsError
  | error (msg : String) : JsError

/-- The host's JSON codec: `parse s = none` when `JSON.parse(s)` throws a
`SyntaxError`. The empty string is not a JSON text. -/
structure Platform where
  parse : String → Option Json
  stringify : Json → String
  parse_empty : parse "" = none

/-- The host's DOM, as far as the modelled state can see it: whether the
DOM operations of `fillSelect` complete for a database, and whether the part
of `render` after line 96 completes for a database and a question number. -/
structure Dom where
  fillSelect : Json → Bool
  renderView : Json → Option Int → Bool

/-- JavaScript `ToBoolean` on a JSON value. -/
def Json.truthy : Json → Bool
  | .null => false
  | .bool b => b
  | .num n => n != 0
  | .str s => s != ""
  | .arr _ => true
  | .obj _ => true

/-- The property read `v[key]` for a key that no built-in prototype defines
(`questions`, `number`): a `TypeError` on `null`, the own property of an
object, `undefined` on everything else. -/
def Json.getProp (v : Json) (key : String) : Except JsError (Option Json) :=
  match v with
  | .null => .error .typeError
  | .obj kvs => .ok (kvs.lookup key)
  | _ => .ok none

/-- The host's `Array.isArray`, on a value or `undefined`. -/
def isArray : Option Json → Bool
  | some (.arr _) => true
  | _ => false

/-- JavaScript `ToBoolean` on the result of `localStorage.getItem`: `null`
and the empty string are falsy. -/
def truthyItem : Option String → Bool
  | none => false
  | some s => s != ""

/-! ## The application state -/

def KEY_CUSTOM_DB : String := "esn_custom_db_v1"
def KEY_LAST_Q : String := "esn_last_q_v1"
def KEY_DOCS_BASE : String := "esn_docs_base_v1"

/-- The contents of `localStorage`: `getItem`. -/
abbrev Storage := String → Option String

def Storage.setItem (st : Storage) (key val : String) : Storage :=
  fun k => if k = key then some val else st k

def Storage.removeItem (st : Storage) (key : String) : Storage :=
  fun k => if k = key then none else st k

/-- The module-level variables `db` and `current` and the browser's
`localStorage`. `current = none` stands for `NaN`. -/
structure State where
  storage : Storage
  db : Json
  current : Option Int

/-- The body of the HTTP response to `fetch('questions.json')` and its
`ok` flag. -/
structure Response where
  ok : Bool
  body : String

/-- Observable actions of a run, in the order they happen. -/
inductive Event where
  | fetch : Event
  | warn : Event
  | confirm : Event
  | loadDb : Event
  | alert (msg : String) : Event

/-- The state a run ends in, how it completed, and what it did. -/
structure Run (α : Type) where
  state : State
  result : α
  trace : List Event

/-- Lines 70 to 73 of `loadDb`: the bundled database. `net` is what
`fetch('questions.json')` settles to, `none` when it rejects. -/
def loadDb.bundled (P : Platform) (net : Option Response) (s : State)
    (tr : List Event) : Run (Except JsError Unit) :=
  match net with
  | none => ⟨s, .error .networkError, tr ++ [.fetch]⟩
  | some res =>
    if !res.ok then
      ⟨s, .error (.error "Не удалось загрузить questions.json"), tr ++ [.fetch]⟩
    else
      match P.parse res.body with
      | none => ⟨s, .error .syntaxError, tr ++ [.fetch]⟩
      | some v =>
        let s1 : State := { s with db := v }
        match v.getProp "questions" with
        | .error e => ⟨s1, .error e, tr ++ [.fetch]⟩
        | .ok q =>
          if !isArray q then
            ⟨s1, .error (.error "Неверный формат questions.json"), tr ++ [.fetch]⟩
          else ⟨s1, .ok (), tr ++ [.fetch]⟩

/-- The function `loadDb` (lines 56 to 74). The `catch` block is entered
from three places: `JSON.parse` throwing (before `db` is assigned), the read
`db.questions` throwing on `null`, and the explicit `throw` when
`db.questions` is not an array (both after `db` is assigned). -/
def loadDb (P : Platform) (net : Option Response) (s : State) :
    Run (Except JsError Unit) :=
  match s.storage KEY_CUSTOM_DB with
  | none => loadDb.bundled P net s []
  | some custom =>
    if !truthyItem (some custom) then loadDb.bundled P net s []
    else
      match P.parse custom with
      | none =>
        loadDb.bundled P net
          { s with storage := s.storage.removeItem KEY_CUSTOM_DB } [.warn]
      | some v =>
        let s1 : State := { s with db := v }
        match v.getProp "questions" with
        | .error _ =>
          loadDb.bundled P net
            { s1 with storage := s1.storage.removeItem KEY_CUSTOM_DB } [.warn]
        | .ok q =>
          if !isArray q then
            loadDb.bundled P net
              { s1 with storage := s1.storage.removeItem KEY_CUSTOM_DB } [.warn]
          else ⟨s1, .ok (), []⟩

/-- The function `clamp`, `Math.max(min, Math.min(max, n))`; `NaN` stays
`NaN`. -/
def clamp (n : Option Int) (min max : Int) : Option Int :=
  n.map fun n => Max.max min (Min.min max n)

/-- JavaScript `String(n)` for an integer or `NaN`. -/
def numberToString : Option Int → String
  | none => "NaN"
  | some n => toString n

/-- The function `render`: lines 94 to 96 update `current` and the
last-question entry, the rest changes the DOM only. -/
def render (dom : Dom) (num : Option Int) (s : State) : State × Except JsError Unit :=
  let num := clamp num 1 67
  let s1 : State :=
    { s with current := num,
             storage := s.storage.setItem KEY_LAST_Q (numberToString num) }
  (s1, if dom.renderView s1.db num then .ok () else .error .typeError)

/-- How a run of the import handler ends. `rejected` is an exception thrown
before line 246, `storeFailed` one thrown by `localStorage.setItem` at line
246, `loadFailed` one thrown by `loadDb`, `viewFailed` one thrown by
`fillSelect` or `render`; the four are caught at line 251. -/
inductive ImportOutcome where
  | noFile : ImportOutcome
  | rejected (e : JsError) : ImportOutcome
  | declined : ImportOutcome
  | storeFailed (e : JsError) : ImportOutcome
  | loadFailed (e : JsError) : ImportOutcome
  | viewFailed (e : JsError) : ImportOutcome
  | imported : ImportOutcome

/-- The array `obj.questions.map(q => q.number)`: each element is a value or
`undefined`, and the read throws on a `null` question. -/
def mapNumber : List Json → Except JsError (List (Option Json))
  | [] => .ok []
  | q :: qs =>
    match q.getProp "number" with
    | .error e => .error e
    | .ok n =>
      match mapNumber qs with
      | .error e => .error e
      | .ok ns => .ok (n :: ns)

/-- The comparison of a set element (a value or `undefined`) with the number
`n`, as `Set.prototype.has` makes it. -/
def sameNumber (x : Option Json) (n : Int) : Bool :=
  match x with
  | some (.num m) => m == n
  | _ => false

/-- The test `nums.has(n)` on the set built from `mapNumber`. -/
def setHas (nums : List (Option Json)) (n : Int) : Bool :=
  nums.any fun x => sameNumber x n

/-- The function `fillSelect` (lines 80 to 91). The spread
`[...db.questions]` throws a `TypeError` when `db` is `null` or
`db.questions` is not iterable, and the reads `a.number`, `q.number` throw
one when a question is `null`; apart from that the function changes the DOM
only. -/
def fillSelect (dom : Dom) (s : State) : Except JsError Unit :=
  match s.db.getProp "questions" with
  | .error e => .error e
  | .ok (some (.arr qs)) =>
    match mapNumber qs with
    | .error e => .error e
    | .ok _ => if dom.fillSelect s.db then .ok () else .error .typeError
  | .ok (some (.str _)) => if dom.fillSelect s.db then .ok () else .error .typeError
  | .ok _ => .error .typeError

def importErrorLabel : String := "Ошибка импорта JSON: "
def importedMessage : String := "База импортирована."

/-- The text of an exception as the `alert` at line 252 shows it; the text
of a host exception, which the host chooses, is represented by its name. -/
def JsError.message : JsError → String
  | .error msg => msg
  | .syntaxError => "SyntaxError"
  | .typeError => "TypeError"
  | .networkError => "NetworkError"
  | .quotaExceeded => "QuotaExceededError"

/-- The error thrown at line 236. -/
def importShapeError : JsError := .error "Поле questions отсутствует или не массив"

/-- The `catch` block of the import handler (line 252). -/
def importCatch (s : State) (out : ImportOutcome) (e : JsError) (tr : List Event) :
    Run ImportOutcome :=
  ⟨s, out, tr ++ [.alert (importErrorLabel ++ e.message)]⟩

/-- Lines 246 to 250 of the import handler, under the `catch` of line 251:
the payload `obj` is stored and loaded. `stored` tells whether
`localStorage.setItem` at line 246 completes; when it throws (the quota is
exceeded) nothing is stored and the `catch` is entered at once. `tr0` is
what the run did before. -/
def importHandler.commit (P : Platform) (dom : Dom) (net : Option Response) (stored : Bool)
    (s : State) (obj : Json) (tr0 : List Event) : Run ImportOutcome :=
  if !stored then importCatch s (.storeFailed .quotaExceeded) .quotaExceeded tr0
  else
    let s1 : State :=
      { s with storage := s.storage.setItem KEY_CUSTOM_DB (P.stringify obj) }
    let r := loadDb P net s1
    let tr1 := tr0 ++ [.loadDb] ++ r.trace
    match r.result with
    | .error e => importCatch r.state (.loadFailed e) e tr1
    | .ok () =>
      match fillSelect dom r.state with
      | .error e => importCatch r.state (.viewFailed e) e tr1
      | .ok () =>
        let r2 := render dom r.state.current r.state
        match r2.2 with
        | .error e => importCatch r2.1 (.viewFailed e) e tr1
        | .ok () => ⟨r2.1, .imported, tr1 ++ [.alert importedMessage]⟩

/-- The `change` handler of `dbFile` (lines 230 to 256). `file` is the text
of the chosen file (`none` when no file is chosen), `answer` is what the
operator answers if `confirm` is shown, `net` what a `fetch` would settle
to, `stored` whether the write at line 246 would complete. -/
def importHandler (P : Platform) (dom : Dom) (file : Option String) (answer : Bool)
    (net : Option Response) (stored : Bool) (s : State) : Run ImportOutcome :=
  match file with
  | none => ⟨s, .noFile, []⟩
  | some text =>
    match P.parse text with
    | none => importCatch s (.rejected .syntaxError) .syntaxError []
    | some obj =>
      if !obj.truthy then importCatch s (.rejected importShapeError) importShapeError []
      else
        match obj.getProp "questions" with
        | .error e => importCatch s (.rejected e) e []
        | .ok (some (.arr qs)) =>
          match mapNumber qs with
          | .error e => importCatch s (.rejected e) e []
          | .ok nums =>
            let ask := !setHas nums 1 || !setHas nums 67
            let tr0 : List Event := if ask then [.confirm] else []
            if ask && !answer then ⟨s, .declined, tr0⟩
            else importHandler.commit P dom net stored s obj tr0
        | .ok _ => importCatch s (.rejected importShapeError) importShapeError []

/-- How a run of the reset handler ends; an exception is not caught. -/
inductive ResetOutcome where
  | cancelled : ResetOutcome
  | loadFailed (e : JsError) : ResetOutcome
  | viewFailed (e : JsError) : ResetOutcome
  | done : ResetOutcome

/-- The `click` handler of `btnResetDb` (lines 258 to 264). -/
def resetHandler (P : Platform) (dom : Dom) (answer : Bool)
    (net : Option Response) (s : State) : Run ResetOutcome :=
  if !answer then ⟨s, .cancelled, [.confirm]⟩
  else
    let s1 : State := { s with storage := s.storage.removeItem KEY_CUSTOM_DB }
    let r := loadDb P net s1
    let tr1 : List Event := [.confirm, .loadDb] ++ r.trace
    match r.result with
    | .error e => ⟨r.state, .loadFailed e, tr1⟩
    | .ok () =>
      match fillSelect dom r.state with
      | .error e => ⟨r.state, .viewFailed e, tr1⟩
      | .ok () =>
        let r2 := render dom r.state.current r.state
        match r2.2 with
        | .error e => ⟨r2.1, .viewFailed e, tr1⟩
        | .ok () => ⟨r2.1, .done, tr1⟩

/-- The module-level initial values (lines 13 and 14) over a given
`localStorage`. -/
def initialState (st : Storage) : State :=
  { storage := st, db := .obj [("questions", .arr [])], current := some 1 }

/-! ## The documents base URL -/

/-- The code points that `String.prototype.trim` strips: ECMAScript
`WhiteSpace` and `LineTerminator`. -/
def isJsWhiteSpace (c : Char) : Bool :=
  let n := c.toNat
  n = 0x09 || n = 0x0A || n = 0x0B || n = 0x0C || n = 0x0D || n = 0x20 ||
  n = 0xA0 || n = 0x1680 || (0x2000 ≤ n && n ≤ 0x200A) || n = 0x2028 ||
  n = 0x2029 || n = 0x202F || n = 0x205F || n = 0x3000 || n = 0xFEFF

/-- The characters of `s.trim()`. -/
def trimChars (cs : List Char) : List Char :=
  ((cs.dropWhile isJsWhiteSpace).reverse.dropWhile isJsWhiteSpace).reverse

/-- JavaScript `s.trim()`. -/
def jsTrim (s : String) : String := ⟨trimChars s.data⟩

/-- JavaScript `s.endsWith('/')`. -/
def endsWithSlash (s : String) : Bool := s.data.getLast? == some '/'

/-- The function `normalizeBaseUrl` (lines 47 to 54), on a string. -/
def normalizeBaseUrl (url : String) : String :=
  if url = "" then ""
  else
    let url := jsTrim url
    if url = "" then ""
    else if !endsWithSlash url then url ++ "/"
    else url

/-- The `change` handler of `docsBaseUrl` (lines 223 to 228); `input` is the
value of the text field. -/
def docsBaseUrlChange (dom : Dom) (input : String) (s : State) : State × Except JsError Unit :=
  let val := normalizeBaseUrl input
  render dom s.current { s with storage := s.storage.setItem KEY_DOCS_BASE val }

/-- The value `initBase` of `main` (line 295) from what `getItem` returned. -/
def initBase (base : Option String) : String :=
  match base with
  | none => "docs/"
  | some b => if b != "" && jsTrim b != "" then b else "docs/"

/-- Lines 293 to 297 of `main`: restore the settings. -/
def main.restoreSettings (s : State) : State :=
  { s with storage :=
      s.storage.setItem KEY_DOCS_BASE (initBase (s.storage KEY_DOCS_BASE)) }

/-! ## A reference JSON codec

A compact codec for `Json` (integers, strings with the two escapes for the
quote and the backslash, insignificant white space, the fields of an object
kept as written), used to instantiate `Platform` in closed examples. -/

namespace JsonRef

def quoteChar : Char := Char.ofNat 34
def backslash : Char := Char.ofNat 92
def openBrace : Char := Char.ofNat 123
def closeBrace : Char := Char.ofNat 125

/-- The characters of a string literal, between the quotes. -/
def escape : List Char → List Char
  | [] => []
  | c :: cs =>
    if c = quoteChar || c = backslash then backslash :: c :: escape cs
    else c :: escape cs

def quote (s : String) : List Char :=
  quoteChar :: escape s.data ++ [quoteChar]

mutual
/-- The JSON text of a value, without white space. -/
def write : Json → List Char
  | .null => "null".data
  | .bool true => "true".data
  | .bool false => "false".data
  | .num n => (toString n).data
  | .str s => quote s
  | .arr xs => '[' :: writeItems xs ++ [']']
  | .obj kvs => openBrace :: writeFields kvs ++ [closeBrace]
def writeItems : List Json → List Char
  | [] => []
  | x :: xs =>
    match xs with
    | [] => write x
    | _ :: _ => write x ++ ',' :: writeItems xs
def writeFields : List (String × Json) → List Char
  | [] => []
  | (k, v) :: kvs =>
    match kvs with
    | [] => quote k ++ ':' :: write v
    | _ :: _ => quote k ++ ':' :: write v ++ ',' :: writeFields kvs
end

def isSpace (c : Char) : Bool :=
  c = ' ' || c = Char.ofNat 9 || c = Char.ofNat 10 || c = Char.ofNat 13

def skipWs (cs : List Char) : List Char := cs.dropWhile isSpace

/-- Reads a string literal after its opening quote: the characters and the
rest of the input after the closing quote. -/
def readString : List Char → Option (List Char × List Char)
  | [] => none
  | c :: cs =>
    if c = quoteChar then some ([], cs)
    else if c = backslash then
      match cs with
      | [] => none
      | d :: ds =>
        if d = quoteChar || d = backslash then
          match readString ds with
          | some (s, rest) => some (d :: s, rest)
          | none => none
        else none
    else
      match readString cs with
      | some (s, rest) => some (c :: s, rest)
      | none => none

/-- Reads a non-empty run of decimal digits into a natural number. -/
def readDigits : List Char → Option Nat → Option Nat × List Char
  | [], acc => (acc, [])
  | c :: cs, acc =>
    if c.isDigit then readDigits cs (some (acc.getD 0 * 10 + (c.toNat - 48)))
    else (acc, c :: cs)

def readNumber (cs : List Char) : Option (Json × List Char) :=
  match cs with
  | '-' :: rest =>
    match readDigits rest none with
    | (some n, rest) => some (.num (-(n : Int)), rest)
    | (none, _) => none
  | _ =>
    match readDigits cs none with
    | (some n, rest) => some (.num (n : Int), rest)
    | (none, _) => none

mutual
/-- Reads one value; the first argument bounds the nesting and the number of
items read. -/
def readValue : Nat → List Char → Option (Json × List Char)
  | 0, _ => none
  | fuel + 1, cs =>
    match skipWs cs with
    | [] => none
    | c :: rest =>
      if c = quoteChar then
        match readString rest with
        | some (s, rest) => some (.str ⟨s⟩, rest)
        | none => none
      else if c = '[' then
        match skipWs rest with
        | ']' :: rest => some (.arr [], rest)
        | _ =>
          match readItems fuel rest with
          | some (xs, rest) => some (.arr xs, rest)
          | none => none
      else if c = openBrace then
        match skipWs rest with
        | [] => none
        | d :: rest1 =>
          if d = closeBrace then some (.obj [], rest1)
          else
            match readFields fuel rest with
            | some (kvs, rest) => some (.obj kvs, rest)
            | none => none
      else
        match c :: rest with
        | 'n' :: 'u' :: 'l' :: 'l' :: rest => some (.null, rest)
        | 't' :: 'r' :: 'u' :: 'e' :: rest => some (.bool true, rest)
        | 'f' :: 'a' :: 'l' :: 's' :: 'e' :: rest => some (.bool false, rest)
        | cs => readNumber cs
/-- Reads `value (, value)* ]`. -/
def readItems : Nat → List Char → Option (List Json × List Char)
  | 0, _ => none
  | fuel + 1, cs =>
    match readValue fuel cs with
    | none => none
    | some (x, rest) =>
      match skipWs rest with
      | ']' :: rest => some ([x], rest)
      | ',' :: rest =>
        match readItems fuel rest with
        | some (xs, rest) => some (x :: xs, rest)
        | none => none
      | _ => none
/-- Reads `"key" : value (, "key" : value)*` and the closing brace. -/
def readFields : Nat → List Char → Option (List (String × Json) × List Char)
  | 0, _ => none
  | fuel + 1, cs =>
    match skipWs cs with
    | [] => none
    | q :: rest =>
      if q = quoteChar then
        match readString rest with
        | none => none
        | some (k, rest) =>
          match skipWs rest with
          | ':' :: rest =>
            match readValue fuel rest with
            | none => none
            | some (v, rest) =>
              match skipWs rest with
              | [] => none
              | d :: rest =>
                if d = closeBrace then some ([(⟨k⟩, v)], rest)
                else if d = ',' then
                  match readFields fuel rest with
                  | some (kvs, rest) => some ((⟨k⟩, v) :: kvs, rest)
                  | none => none
                else none
          | _ => none
      else none
end

/-- The codec's `JSON.parse`: one value and nothing but white space after
it. -/
def parse (s : String) : Option Json :=
  match readValue (s.data.length + 1) s.data with
  | some (v, rest) => if (skipWs rest).isEmpty then some v else none
  | none => none

/-- The codec's `JSON.stringify`. -/
def stringify (v : Json) : String := ⟨write v⟩

/-- The reference codec as a host. -/
def platform : Platform :=
  { parse := parse, stringify := stringify, parse_empty := rfl }

end JsonRef

/-! ## The service worker (`src/sw.js`) -/

namespace SW

def CACHE_NAME : String := "esn-pwa-v2"

def ASSETS : List String :=
  [".", "index.html", "style.css", "app.js", "questions.json",
   "manifest.webmanifest", "assets/icon-192.png", "assets/icon-512.png"]

/-- An intercepted request: its URL, the origin of that URL
(`new URL(req.url).origin`) and its method. The URL of an asset is written
as in `ASSETS`, relative to the worker's scope. -/
structure Request where
  url : String
  origin : String
  method : String

/-- The URL without its fragment: the characters before the first `#`. -/
def stripFragment (url : String) : String := ⟨url.data.takeWhile fun c => c != '#'⟩

/-- One cache of the host: the stored response of each request URL, the
fragment left out. -/
abbrev Cache := String → Option Response

/-- The host's `caches`: the named caches, in creation order. -/
abbrev CacheStorage := List (String × Cache)

def Cache.empty : Cache := fun _ => none

/-- The host's `cache.put(url, response)`: the entry of the URL, compared
without its fragment, is replaced. -/
def Cache.put (c : Cache) (url : String) (r : Response) : Cache :=
  fun u => if u = stripFragment url then some r else c u

/-- The host's `cache.match(url)` on a URL string, which stands for a `GET`
of that URL: the URLs are compared without their fragments. -/
def Cache.matchUrl (c : Cache) (url : String) : Option Response :=
  c (stripFragment url)

/-- The host's `cache.match(req)`: only a `GET` request matches, and the
URLs are compared without their fragments. -/
def Cache.matchReq (c : Cache) (req : Request) : Option Response :=
  if req.method = "GET" then c.matchUrl req.url else none

/-- The host's `caches.keys()`. -/
def CacheStorage.keys (cs : CacheStorage) : List String := cs.map Prod.fst

/-- The host's `caches.open(name)`: the cache is created empty when there is
none of that name. -/
def CacheStorage.open (cs : CacheStorage) (name : String) : CacheStorage × Cache :=
  match cs.lookup name with
  | some c => (cs, c)
  | none => (cs ++ [(name, Cache.empty)], Cache.empty)

/-- The host's `caches.delete(name)`. -/
def CacheStorage.delete (cs : CacheStorage) (name : String) : CacheStorage :=
  cs.filter fun e => e.1 != name

/-- Writes through a handle obtained from `open`: replaces the content of
the cache called `name`. -/
def CacheStorage.store (cs : CacheStorage) (name : String) (c : Cache) : CacheStorage :=
  cs.map fun e => if e.1 = name then (e.1, c) else e

/-- The host's `cache.addAll(urls)`: every URL is fetched (`net url`, `none`
when the fetch rejects); unless every response is `ok` nothing is stored and
the call rejects (`none`). -/
def Cache.addAll (net : String → Option Response) (urls : List String) (c : Cache) :
    Option Cache :=
  if urls.all fun u => match net u with
      | some r => r.ok
      | none => false
  then
    some (urls.foldl (fun c u => match net u with
      | some r => c.put u r
      | none => c) c)
  else none

/-- The `install` handler (lines 13 to 19): the caches afterwards and
whether the promise given to `waitUntil` fulfilled. -/
def install (net : String → Option Response) (cs : CacheStorage) : CacheStorage × Bool :=
  let (cs1, cache) := cs.open CACHE_NAME
  match cache.addAll net ASSETS with
  | some cache1 => (cs1.store CACHE_NAME cache1, true)
  | none => (cs1, false)

/-- The `activate` handler (lines 21 to 27): each key other than
`CACHE_NAME` is deleted. -/
def activate (cs : CacheStorage) : CacheStorage :=
  cs.keys.foldl (fun cs k => if k != CACHE_NAME then cs.delete k else cs) cs

/-- The cache and network operations of a run of the `fetch` handler. -/
inductive CacheOp where
  | openCache : CacheOp
  | matchReq (url : String) : CacheOp
  | fetch : CacheOp
  | put (url : String) : CacheOp

/-- What the `fetch` handler does with the event: returns without
`respondWith`, or responds with a response or with `undefined`. -/
inductive Served where
  | passThrough : Served
  | respondWith (r : Option Response) : Served

/-- A run of the `fetch` handler. -/
structure FetchRun where
  caches : CacheStorage
  served : Served
  ops : List CacheOp

/-- The `fetch` handler (lines 29 to 52). `selfOrigin` is
`self.location.origin`, `net` what `fetch(req)` settles to (`none` when it
rejects). -/
def fetchHandler (selfOrigin : String) (net : Option Response) (req : Request)
    (cs : CacheStorage) : FetchRun :=
  if req.origin != selfOrigin then ⟨cs, .passThrough, []⟩
  else
    let (cs1, cache) := cs.open CACHE_NAME
    match cache.matchReq req with
    | some cached => ⟨cs1, .respondWith (some cached), [.openCache, .matchReq req.url]⟩
    | none =>
      match net with
      | some fresh =>
        if req.method = "GET" && fresh.ok then
          ⟨cs1.store CACHE_NAME (cache.put req.url fresh), .respondWith (some fresh),
            [.openCache, .matchReq req.url, .fetch, .put req.url]⟩
        else
          ⟨cs1, .respondWith (some fresh), [.openCache, .matchReq req.url, .fetch]⟩
      | none =>
        ⟨cs1, .respondWith (cache.matchUrl "index.html"),
          [.openCache, .matchReq req.url, .fetch, .matchReq "index.html"]⟩

end SW

/-! ## Notions the stated properties use -/

/-- The value is an object whose `questions` field is an array. -/
def hasArrayQuestions (v : Json) : Bool :=
  match v with
  | .obj kvs =>
    match kvs.lookup "questions" with
    | some (.arr _) => true
    | _ => false
  | _ => false

/-- The questions of a database, `[]` when it has no array of them. -/
def questionsOf (v : Json) : List Json :=
  match v with
  | .obj kvs =>
    match kvs.lookup "questions" with
    | some (.arr qs) => qs
    | _ => []
  | _ => []

/-- The `number` of a question when it is a number. -/
def numberOf (q : Json) : Option Int :=
  match q with
  | .obj kvs =>
    match kvs.lookup "number" with
    | some (.num n) => some n
    | _ => none
  | _ => none

/-- The question `number` values present in a list of questions. -/
def numberValues (qs : List Json) : List Int := qs.filterMap numberOf

/-- An empty `localStorage`. -/
def emptyStorage : Storage := fun _ => none

/-- A DOM on which no DOM operation throws. -/
def soundDom : Dom := { fillSelect := fun _ => true, renderView := fun _ _ => true }

/-- A database with the questions 1 and 67. -/
def sampleDb : Json :=
  .obj [("questions", .arr [.obj [("number", .num 1), ("title", .str "A")],
                            .obj [("number", .num 67), ("title", .str "Z")]])]

/-- A database whose only question is `null`. -/
def nullQuestionDb : Json := .obj [("questions", .arr [.null])]

/-- A successful response carrying the JSON text of a value. -/
def okResponse (v : Json) : Response := { ok := true, body := JsonRef.stringify v }

/-- An origin for the application in the examples. -/
def appOrigin : String := "https://app.example"

/-- A same-origin `GET` of `index.html`, with a fragment. -/
def indexRequest : SW.Request :=
  { url := "index.html#top", origin := appOrigin, method := "GET" }

/-- A same-origin `GET` of a document that is not cached. -/
def dataRequest : SW.Request :=
  { url := "data.json", origin := appOrigin, method := "GET" }

/-- The page stored for `index.html` in the examples. -/
def indexPage : Response := { ok := true, body := "page" }

/-- Caches in which the current cache holds `index.html` only. -/
def shellCaches : SW.CacheStorage :=
  [(SW.CACHE_NAME, SW.Cache.put SW.Cache.empty "index.html" indexPage)]

end Diotk

/-! # Properties -/
namespace Diotk

/-! ## The documents base URL -/

theorem trimChars_eq_rdropWhile (l : List Char) :
    trimChars l = (l.dropWhile isJsWhiteSpace).rdropWhile isJsWhiteSpace := rfl

theorem trimChars_head (l : List Char) (c : Char) (h : (trimChars l).head? = some c) :
    isJsWhiteSpace c = false := by
  rw [trimChars_eq_rdropWhile] at h
  obtain ⟨r, hr⟩ := List.rdropWhile_prefix isJsWhiteSpace (l := l.dropWhile isJsWhiteSpace)
  cases ht : (l.dropWhile isJsWhiteSpace).rdropWhile isJsWhiteSpace with
  | nil => rw [ht] at h; simp at h
  | cons a t =>
    rw [ht] at h hr
    simp at h
    subst h
    have hne : l.dropWhile isJsWhiteSpace ≠ [] := by rw [← hr]; simp
    have := List.head_dropWhile_not isJsWhiteSpace l hne
    have h2 : (l.dropWhile isJsWhiteSpace).head hne = a := by
      simp [← hr]
    rw [h2] at this
    simpa using this

theorem trimChars_fixed (l : List Char)
    (h0 : ∀ c, l.head? = some c → isJsWhiteSpace c = false)
    (h1 : ∀ c, l.getLast? = some c → isJsWhiteSpace c = false) : trimChars l = l := by
  rw [trimChars_eq_rdropWhile]
  have hd : l.dropWhile isJsWhiteSpace = l := by
    cases l with
    | nil => rfl
    | cons a t =>
      have := h0 a rfl
      simp [List.dropWhile, this]
  rw [hd, List.rdropWhile_eq_self_iff]
  intro hl
  have := h1 (l.getLast hl) (List.getLast?_eq_getLast _ hl)
  simp [this]

theorem slash_not_space : isJsWhiteSpace '/' = false := by decide


theorem str_eq_empty_iff (s : String) : s = "" ↔ s.data = [] := by
  rw [String.ext_iff]

theorem endsWithSlash_append_slash (t : String) : endsWithSlash (t ++ "/") = true := by
  simp [endsWithSlash, String.data_append]

theorem jsTrim_fixed (r : String) (hend : endsWithSlash r = true)
    (hhead : ∀ c, r.data.head? = some c → isJsWhiteSpace c = false) : jsTrim r = r := by
  have : trimChars r.data = r.data := by
    apply trimChars_fixed _ hhead
    intro c hc
    simp [endsWithSlash] at hend
    rw [hend] at hc
    simp at hc
    rw [← hc]
    exact slash_not_space
  simp [jsTrim, this]

theorem normalizeBaseUrl_fixed (r : String) (hend : endsWithSlash r = true)
    (hhead : ∀ c, r.data.head? = some c → isJsWhiteSpace c = false) :
    normalizeBaseUrl r = r := by
  unfold normalizeBaseUrl
  simp only [jsTrim_fixed r hend hhead, hend]
  by_cases h : r = ""
  · simp [h]
  · simp [h]

theorem normalizeBaseUrl_shape (s : String) :
    normalizeBaseUrl s = "" ∨ endsWithSlash (normalizeBaseUrl s) = true := by
  unfold normalizeBaseUrl
  by_cases h1 : s = ""
  · simp [h1]
  · by_cases h2 : jsTrim s = ""
    · simp [h1, h2]
    · cases h3 : endsWithSlash (jsTrim s)
      · simp [h1, h2, h3, endsWithSlash_append_slash]
      · simp [h1, h2, h3]

theorem normalizeBaseUrl_idem (s : String) :
    normalizeBaseUrl (normalizeBaseUrl s) = normalizeBaseUrl s := by
  by_cases h1 : s = ""
  · subst h1; rfl
  · by_cases h2 : jsTrim s = ""
    · have : normalizeBaseUrl s = "" := by simp [normalizeBaseUrl, h1, h2]
      rw [this]; rfl
    · have hd : (jsTrim s).data ≠ [] := fun h => h2 ((str_eq_empty_iff _).2 h)
      cases h3 : endsWithSlash (jsTrim s)
      · have : normalizeBaseUrl s = jsTrim s ++ "/" := by simp [normalizeBaseUrl, h1, h2, h3]
        rw [this]
        apply normalizeBaseUrl_fixed _ (endsWithSlash_append_slash _)
        intro c hc
        apply trimChars_head s.data c
        rw [String.data_append] at hc
        rw [List.head?_append_of_ne_nil _ hd] at hc
        exact hc
      · have : normalizeBaseUrl s = jsTrim s := by simp [normalizeBaseUrl, h1, h2, h3]
        rw [this]
        apply normalizeBaseUrl_fixed _ h3
        intro c hc
        exact trimChars_head s.data c hc


/-! ## The database resolver -/

theorem hasArrayQuestions_iff (v : Json) :
    hasArrayQuestions v = true ↔
      ∃ kvs qs, v = .obj kvs ∧ kvs.lookup "questions" = some (.arr qs) := by
  unfold hasArrayQuestions
  constructor
  · intro h
    split at h
    · rename_i kvs
      split at h
      · rename_i qs hq
        exact ⟨kvs, qs, rfl, hq⟩
      · simp at h
    · simp at h
  · rintro ⟨kvs, qs, rfl, hq⟩
    simp [hq]

theorem getProp_questions_of_shape {v : Json} (h : hasArrayQuestions v = true) :
    v.getProp "questions" = .ok (some (.arr (questionsOf v))) := by
  obtain ⟨kvs, qs, rfl, hq⟩ := (hasArrayQuestions_iff v).1 h
  simp [Json.getProp, questionsOf, hq]

theorem truthy_of_shape {v : Json} (h : hasArrayQuestions v = true) : v.truthy = true := by
  obtain ⟨kvs, qs, rfl, _⟩ := (hasArrayQuestions_iff v).1 h
  rfl

/-- The test `Array.isArray(v.questions)` of the code succeeds exactly on the
values of the stated shape (a read that throws counts as failing). -/
theorem shape_check (v : Json) :
    (match v.getProp "questions" with
      | .ok q => isArray q
      | .error _ => false) = hasArrayQuestions v := by
  cases v with
  | obj kvs =>
    simp only [Json.getProp, hasArrayQuestions]
    cases h : kvs.lookup "questions" with
    | none => rfl
    | some q => cases q <;> rfl
  | _ => rfl

theorem bundled_ok (P : Platform) (r : Response) (B : Json) (s : State) (tr : List Event)
    (hok : r.ok = true) (hB : P.parse r.body = some B) (hBq : hasArrayQuestions B = true) :
    loadDb.bundled P (some r) s tr = ⟨{ s with db := B }, .ok (), tr ++ [.fetch]⟩ := by
  simp [loadDb.bundled, hok, hB, getProp_questions_of_shape hBq, isArray]

theorem bundled_storage (P : Platform) (net : Option Response) (s : State) (tr : List Event) :
    (loadDb.bundled P net s tr).state.storage = s.storage := by
  unfold loadDb.bundled
  repeat' split
  all_goals rfl

theorem bundled_result_ok (P : Platform) (net : Option Response) (s : State) (tr : List Event)
    (h : (loadDb.bundled P net s tr).result = .ok ()) :
    hasArrayQuestions (loadDb.bundled P net s tr).state.db = true := by
  cases net with
  | none => simp [loadDb.bundled] at h
  | some res =>
    cases hok : res.ok with
    | false => simp [loadDb.bundled, hok] at h
    | true =>
      cases hp : P.parse res.body with
      | none => simp [loadDb.bundled, hok, hp] at h
      | some v =>
        cases hg : v.getProp "questions" with
        | error e => simp [loadDb.bundled, hok, hp, hg] at h
        | ok q =>
          cases hq : isArray q with
          | false => simp [loadDb.bundled, hok, hp, hg, hq] at h
          | true =>
            have hv : hasArrayQuestions v = true := by
              rw [← shape_check v, hg]
              exact hq
            simpa [loadDb.bundled, hok, hp, hg, hq] using hv

theorem loadDb_custom_ok (P : Platform) (net : Option Response) (s : State) (c : String)
    (v : Json) (hc : s.storage KEY_CUSTOM_DB = some c) (hne : c ≠ "")
    (hv : P.parse c = some v) (hs : hasArrayQuestions v = true) :
    loadDb P net s = ⟨{ s with db := v }, .ok (), []⟩ := by
  simp [loadDb, hc, truthyItem, hne, hv, getProp_questions_of_shape hs, isArray]

theorem loadDb_absent (P : Platform) (net : Option Response) (s : State)
    (hc : s.storage KEY_CUSTOM_DB = none) :
    loadDb P net s = loadDb.bundled P net s [] := by
  simp [loadDb, hc]


theorem loadDb_corrupt (P : Platform) (net : Option Response) (s : State) (c : String)
    (hc : s.storage KEY_CUSTOM_DB = some c) (hne : c ≠ "")
    (hbad : P.parse c = none ∨ ∃ v, P.parse c = some v ∧ hasArrayQuestions v = false) :
    ∃ d, loadDb P net s =
      loadDb.bundled P net
        { storage := s.storage.removeItem KEY_CUSTOM_DB, db := d, current := s.current }
        [.warn] := by
  rcases hbad with hp | ⟨v, hp, hv⟩
  · exact ⟨s.db, by simp [loadDb, hc, truthyItem, hne, hp]⟩
  · refine ⟨v, ?_⟩
    rw [← shape_check v] at hv
    cases hg : v.getProp "questions" with
    | error e => simp [loadDb, hc, truthyItem, hne, hp, hg]
    | ok q =>
      rw [hg] at hv
      simp only at hv
      simp [loadDb, hc, truthyItem, hne, hp, hg, hv]

theorem loadDb_result_ok (P : Platform) (net : Option Response) (s : State)
    (h : (loadDb P net s).result = .ok ()) :
    hasArrayQuestions (loadDb P net s).state.db = true := by
  cases hc : s.storage KEY_CUSTOM_DB with
  | none =>
    rw [loadDb_absent P net s hc] at h ⊢
    exact bundled_result_ok P net s [] h
  | some c =>
    by_cases hne : c = ""
    · have e : loadDb P net s = loadDb.bundled P net s [] := by
        simp [loadDb, hc, truthyItem, hne]
      rw [e] at h ⊢
      exact bundled_result_ok P net s [] h
    · by_cases hgood : ∃ v, P.parse c = some v ∧ hasArrayQuestions v = true
      · obtain ⟨v, hv, hs⟩ := hgood
        rw [loadDb_custom_ok P net s c v hc hne hv hs]
        exact hs
      · have hbad : P.parse c = none ∨ ∃ v, P.parse c = some v ∧ hasArrayQuestions v = false := by
          cases hp : P.parse c with
          | none => exact Or.inl rfl
          | some v =>
            refine Or.inr ⟨v, rfl, ?_⟩
            cases hs : hasArrayQuestions v with
            | false => rfl
            | true => exact absurd ⟨v, hp, hs⟩ hgood
        obtain ⟨d, e⟩ := loadDb_corrupt P net s c hc hne hbad
        rw [e] at h ⊢
        exact bundled_result_ok P net _ _ h

theorem bundled_trace (P : Platform) (net : Option Response) (s : State) (tr : List Event) :
    (loadDb.bundled P net s tr).trace = tr ++ [.fetch] := by
  unfold loadDb.bundled
  repeat' split
  all_goals rfl

theorem loadDb_trace (P : Platform) (net : Option Response) (s : State) :
    ∀ e ∈ (loadDb P net s).trace, e = .fetch ∨ e = .warn := by
  unfold loadDb
  repeat' split
  all_goals simp [bundled_trace]

theorem mapNumber_of_no_null (qs : List Json) (h : ∀ q ∈ qs, q ≠ Json.null) :
    ∃ ns, mapNumber qs = .ok ns ∧ ∀ n, setHas ns n = true ↔ n ∈ numberValues qs := by
  induction qs with
  | nil => exact ⟨[], rfl, by simp [setHas, numberValues]⟩
  | cons q qs ih =>
    obtain ⟨ns, hns, hmem⟩ := ih (fun q hq => h q (List.mem_cons_of_mem _ hq))
    have hq : q ≠ Json.null := h q (List.mem_cons_self _ _)
    have key : ∃ x, q.getProp "number" = .ok x ∧
        ∀ n, sameNumber x n = true ↔ numberOf q = some n := by
      cases q with
      | null => exact absurd rfl hq
      | obj kvs =>
        refine ⟨kvs.lookup "number", rfl, ?_⟩
        intro n
        simp only [numberOf, sameNumber]
        cases hl : kvs.lookup "number" with
        | none => simp
        | some x => cases x <;> simp
      | bool b => exact ⟨none, rfl, by simp [numberOf, sameNumber]⟩
      | num m => exact ⟨none, rfl, by simp [numberOf, sameNumber]⟩
      | str t => exact ⟨none, rfl, by simp [numberOf, sameNumber]⟩
      | arr xs => exact ⟨none, rfl, by simp [numberOf, sameNumber]⟩
    obtain ⟨x, hx, hxn⟩ := key
    refine ⟨x :: ns, by simp [mapNumber, hx, hns], ?_⟩
    intro n
    have h1 := hmem n
    have h2 := hxn n
    simp only [setHas, List.any_cons, Bool.or_eq_true] at h1 ⊢
    rw [h2]
    simp only [numberValues, List.mem_filterMap, List.mem_cons] at h1 ⊢
    rw [h1]
    constructor
    · rintro (hq | ⟨a, ha, han⟩)
      · exact ⟨q, Or.inl rfl, hq⟩
      · exact ⟨a, Or.inr ha, han⟩
    · rintro ⟨a, (rfl | ha), han⟩
      · exact Or.inl han
      · exact Or.inr ⟨a, ha, han⟩

/-- The import handler on a payload that passes the validation of lines 235
to 238. -/
theorem importHandler_valid (P : Platform) (dom : Dom) (text : String) (answer : Bool)
    (net : Option Response) (stored : Bool) (s : State) (obj : Json)
    (ns : List (Option Json))
    (hp : P.parse text = some obj) (hshape : hasArrayQuestions obj = true)
    (hns : mapNumber (questionsOf obj) = .ok ns) :
    importHandler P dom (some text) answer net stored s =
      if (!setHas ns 1 || !setHas ns 67) && !answer then
        ⟨s, .declined, if (!setHas ns 1 || !setHas ns 67) then [.confirm] else []⟩
      else
        importHandler.commit P dom net stored s obj
          (if (!setHas ns 1 || !setHas ns 67) then [.confirm] else []) := by
  simp only [importHandler, hp, truthy_of_shape hshape, getProp_questions_of_shape hshape, hns]
  rfl

/-- When the write at line 246 throws, the import ends in the state it
started from, with the import-error alert as its only further action. -/
theorem commit_store_failed (P : Platform) (dom : Dom) (net : Option Response) (s : State)
    (obj : Json) (tr0 : List Event) :
    importHandler.commit P dom net false s obj tr0 =
      ⟨s, .storeFailed .quotaExceeded,
        tr0 ++ [.alert (importErrorLabel ++ JsError.quotaExceeded.message)]⟩ := rfl

theorem commit_trace (P : Platform) (dom : Dom) (net : Option Response) (s : State)
    (obj : Json) (tr0 : List Event) :
    ∃ msg, (importHandler.commit P dom net true s obj tr0).trace =
      tr0 ++ [.loadDb] ++
        (loadDb P net
          { s with storage := s.storage.setItem KEY_CUSTOM_DB (P.stringify obj) }).trace ++
        [.alert msg] := by
  unfold importHandler.commit
  simp only [Bool.not_true, Bool.false_eq_true, if_false]
  repeat' split
  all_goals exact ⟨_, rfl⟩

theorem commit_db (P : Platform) (dom : Dom) (net : Option Response) (s : State)
    (obj : Json) (tr0 : List Event) :
    (importHandler.commit P dom net true s obj tr0).state.db =
      (loadDb P net
        { s with storage := s.storage.setItem KEY_CUSTOM_DB (P.stringify obj) }).state.db := by
  unfold importHandler.commit
  simp only [Bool.not_true, Bool.false_eq_true, if_false]
  repeat' split
  all_goals rfl

theorem commit_storage (P : Platform) (dom : Dom) (net : Option Response) (s : State)
    (obj : Json) (tr0 : List Event) (k : String) (hk : k ≠ KEY_LAST_Q) :
    (importHandler.commit P dom net true s obj tr0).state.storage k =
      (loadDb P net
        { s with storage := s.storage.setItem KEY_CUSTOM_DB (P.stringify obj) }).state.storage k := by
  unfold importHandler.commit
  simp only [Bool.not_true, Bool.false_eq_true, if_false]
  repeat' split
  all_goals simp [importCatch, render, Storage.setItem, hk]

theorem import_rejects (P : Platform) (dom : Dom) (text : String) (answer : Bool)
    (net : Option Response) (stored : Bool) (s : State)
    (h : P.parse text = none ∨ ∃ v, P.parse text = some v ∧ hasArrayQuestions v = false) :
    ∃ e, importHandler P dom (some text) answer net stored s =
      ⟨s, .rejected e, [.alert (importErrorLabel ++ e.message)]⟩ := by
  rcases h with hp | ⟨v, hp, hv⟩
  · exact ⟨.syntaxError, by simp [importHandler, hp, importCatch]⟩
  · cases v with
    | null => exact ⟨importShapeError, by simp [importHandler, hp, importCatch, Json.truthy]⟩
    | bool b =>
      cases b
      · exact ⟨importShapeError, by simp [importHandler, hp, importCatch, Json.truthy]⟩
      · exact ⟨importShapeError, by simp [importHandler, hp, importCatch, Json.truthy, Json.getProp]⟩
    | num n =>
      by_cases hn : n = 0
      · exact ⟨importShapeError, by simp [importHandler, hp, importCatch, Json.truthy, hn]⟩
      · exact ⟨importShapeError, by simp [importHandler, hp, importCatch, Json.truthy, hn, Json.getProp]⟩
    | str t =>
      by_cases ht : t = ""
      · exact ⟨importShapeError, by simp [importHandler, hp, importCatch, Json.truthy, ht]⟩
      · exact ⟨importShapeError, by simp [importHandler, hp, importCatch, Json.truthy, ht, Json.getProp]⟩
    | arr xs =>
      exact ⟨importShapeError, by simp [importHandler, hp, importCatch, Json.truthy, Json.getProp]⟩
    | obj kvs =>
      simp only [hasArrayQuestions] at hv
      cases hl : kvs.lookup "questions" with
      | none =>
        exact ⟨importShapeError, by simp [importHandler, hp, importCatch, Json.truthy, Json.getProp, hl]⟩
      | some q =>
        rw [hl] at hv
        cases q with
        | arr qs => simp at hv
        | null =>
          exact ⟨importShapeError, by simp [importHandler, hp, importCatch, Json.truthy, Json.getProp, hl]⟩
        | bool b =>
          exact ⟨importShapeError, by simp [importHandler, hp, importCatch, Json.truthy, Json.getProp, hl]⟩
        | num n =>
          exact ⟨importShapeError, by simp [importHandler, hp, importCatch, Json.truthy, Json.getProp, hl]⟩
        | str t =>
          exact ⟨importShapeError, by simp [importHandler, hp, importCatch, Json.truthy, Json.getProp, hl]⟩
        | obj o =>
          exact ⟨importShapeError, by simp [importHandler, hp, importCatch, Json.truthy, Json.getProp, hl]⟩


theorem key_custom_ne_last : KEY_CUSTOM_DB ≠ KEY_LAST_Q := by decide

/-- C1, as amended. For every database `D` that is an object with an array
`questions` none of whose elements is `null`, and that the host's JSON codec
reads back from its serialisation, the import handler run on that
serialisation with the operator accepting any warning behaves as follows.
When the write at line 246 completes, it stores the serialisation under
`KEY_CUSTOM_DB`, runs `loadDb`, ends with `db = D`, and makes no fetch,
whatever a fetch would have returned. When that write throws (the quota is
exceeded), it ends in the state it started from with an import error and
runs no `loadDb`. -/
theorem import_roundtrip (P : Platform) (dom : Dom) (net : Option Response) (s : State)
    (D : Json) (hshape : hasArrayQuestions D = true)
    (hnull : ∀ q ∈ questionsOf D, q ≠ Json.null)
    (hrt : P.parse (P.stringify D) = some D) :
    ((importHandler P dom (some (P.stringify D)) true net true s).state.storage KEY_CUSTOM_DB
        = some (P.stringify D) ∧
      (importHandler P dom (some (P.stringify D)) true net true s).state.db = D ∧
      Event.loadDb ∈ (importHandler P dom (some (P.stringify D)) true net true s).trace ∧
      Event.fetch ∉ (importHandler P dom (some (P.stringify D)) true net true s).trace) ∧
    ((importHandler P dom (some (P.stringify D)) true net false s).state = s ∧
      (importHandler P dom (some (P.stringify D)) true net false s).result
        = .storeFailed .quotaExceeded ∧
      Event.loadDb ∉ (importHandler P dom (some (P.stringify D)) true net false s).trace) := by
  obtain ⟨ns, hns, -⟩ := mapNumber_of_no_null (questionsOf D) hnull
  have hne : P.stringify D ≠ "" := by
    intro h
    rw [h, P.parse_empty] at hrt
    exact Option.noConfusion hrt
  have hload := loadDb_custom_ok P net
    { s with storage := s.storage.setItem KEY_CUSTOM_DB (P.stringify D) }
    (P.stringify D) D (by simp [Storage.setItem]) hne hrt hshape
  constructor
  · rw [importHandler_valid P dom _ true net true s D ns hrt hshape hns]
    simp only [Bool.not_true, Bool.and_false, Bool.false_eq_true, if_false]
    obtain ⟨msg, htr⟩ := commit_trace P dom net s D
      (if (!setHas ns 1 || !setHas ns 67) then [.confirm] else [])
    refine ⟨?_, ?_, ?_, ?_⟩
    · rw [commit_storage P dom net s D _ _ key_custom_ne_last, hload]
      simp [Storage.setItem]
    · rw [commit_db, hload]
    · rw [htr]; simp
    · rw [htr, hload]
      split <;> simp
  · rw [importHandler_valid P dom _ true net false s D ns hrt hshape hns]
    simp only [Bool.not_true, Bool.and_false, Bool.false_eq_true, if_false]
    rw [commit_store_failed]
    refine ⟨rfl, rfl, ?_⟩
    split <;> simp

/-- C1, witness: the database with the questions 1 and 67, on the reference
codec. -/
theorem import_roundtrip_witness :
    ((importHandler JsonRef.platform soundDom (some (JsonRef.platform.stringify sampleDb)) true
        none true (initialState emptyStorage)).state.storage KEY_CUSTOM_DB
        = some (JsonRef.platform.stringify sampleDb) ∧
      (importHandler JsonRef.platform soundDom (some (JsonRef.platform.stringify sampleDb)) true
        none true (initialState emptyStorage)).state.db = sampleDb ∧
      Event.loadDb ∈ (importHandler JsonRef.platform soundDom
        (some (JsonRef.platform.stringify sampleDb)) true none true
        (initialState emptyStorage)).trace ∧
      Event.fetch ∉ (importHandler JsonRef.platform soundDom
        (some (JsonRef.platform.stringify sampleDb)) true none true
        (initialState emptyStorage)).trace) ∧
    ((importHandler JsonRef.platform soundDom (some (JsonRef.platform.stringify sampleDb)) true
        none false (initialState emptyStorage)).state = initialState emptyStorage ∧
      (importHandler JsonRef.platform soundDom (some (JsonRef.platform.stringify sampleDb)) true
        none false (initialState emptyStorage)).result = .storeFailed .quotaExceeded ∧
      Event.loadDb ∉ (importHandler JsonRef.platform soundDom
        (some (JsonRef.platform.stringify sampleDb)) true none false
        (initialState emptyStorage)).trace) :=
  import_roundtrip JsonRef.platform soundDom none (initialState emptyStorage) sampleDb rfl
    (by simp [questionsOf, sampleDb]) rfl

/-- C1, counterexample: the database whose only question is `null` has an
array `questions` and is read back from its serialisation, yet the import
handler, with the operator accepting and the write at line 246 able to
complete, stores nothing and leaves `db` as it was. -/
theorem import_roundtrip_fails_on_null_question :
    hasArrayQuestions nullQuestionDb = true ∧
    JsonRef.platform.parse (JsonRef.platform.stringify nullQuestionDb) = some nullQuestionDb ∧
    (importHandler JsonRef.platform soundDom (some (JsonRef.platform.stringify nullQuestionDb))
        true (some (okResponse sampleDb)) true (initialState emptyStorage)).state.storage
        KEY_CUSTOM_DB = none ∧
    (importHandler JsonRef.platform soundDom (some (JsonRef.platform.stringify nullQuestionDb))
        true (some (okResponse sampleDb)) true (initialState emptyStorage)).state.db
        ≠ nullQuestionDb := by
  refine ⟨rfl, rfl, rfl, ?_⟩
  intro h
  have h2 : (initialState emptyStorage).db = nullQuestionDb := h
  simp [initialState, nullQuestionDb] at h2

/-- C3. For every raw text that the host does not parse as JSON, or parses
to a value that is not an object with an array `questions`, the import
handler ends in the state it started from (`localStorage`, `db` and
`current` unchanged), with an exception thrown before line 246, and its only
action is the import-error alert carrying that exception's message. -/
theorem import_malformed_leaves_state (P : Platform) (dom : Dom) (text : String)
    (answer : Bool) (net : Option Response) (stored : Bool) (s : State)
    (h : P.parse text = none ∨ ∃ v, P.parse text = some v ∧ hasArrayQuestions v = false) :
    (importHandler P dom (some text) answer net stored s).state = s ∧
    ∃ e, (importHandler P dom (some text) answer net stored s).result = .rejected e ∧
      (importHandler P dom (some text) answer net stored s).trace
        = [.alert (importErrorLabel ++ e.message)] := by
  obtain ⟨e, he⟩ := import_rejects P dom text answer net stored s h
  rw [he]
  exact ⟨rfl, e, rfl, rfl⟩

/-- C3, witness: a text that is not JSON, on the reference codec. -/
theorem import_malformed_leaves_state_witness :
    (importHandler JsonRef.platform soundDom (some "questions") true none true
        (initialState emptyStorage)).state = initialState emptyStorage ∧
    ∃ e, (importHandler JsonRef.platform soundDom (some "questions") true none true
        (initialState emptyStorage)).result = .rejected e ∧
      (importHandler JsonRef.platform soundDom (some "questions") true none true
        (initialState emptyStorage)).trace = [.alert (importErrorLabel ++ e.message)] :=
  import_malformed_leaves_state JsonRef.platform soundDom "questions" true none true
    (initialState emptyStorage) (Or.inl rfl)

/-- C4, as amended. For every import payload that is an object with an array
`questions` none of whose elements is `null`, the confirmation is requested
exactly when the `number` values of the questions lack 1 or lack 67; and
when it is requested and the operator declines, the handler ends in the
state it started from, and the request is its only action (nothing is
stored, `loadDb` is not run, nothing is fetched). -/
theorem import_confirmation (P : Platform) (dom : Dom) (text : String) (answer : Bool)
    (net : Option Response) (stored : Bool) (s : State) (obj : Json)
    (hp : P.parse text = some obj) (hshape : hasArrayQuestions obj = true)
    (hnull : ∀ q ∈ questionsOf obj, q ≠ Json.null) :
    (Event.confirm ∈ (importHandler P dom (some text) answer net stored s).trace ↔
      (1 ∉ numberValues (questionsOf obj) ∨ 67 ∉ numberValues (questionsOf obj))) ∧
    ((1 ∉ numberValues (questionsOf obj) ∨ 67 ∉ numberValues (questionsOf obj)) →
      answer = false →
      (importHandler P dom (some text) answer net stored s).state = s ∧
      (importHandler P dom (some text) answer net stored s).result = .declined ∧
      (importHandler P dom (some text) answer net stored s).trace = [.confirm]) := by
  obtain ⟨ns, hns, hmem⟩ := mapNumber_of_no_null (questionsOf obj) hnull
  have hask : (!setHas ns 1 || !setHas ns 67) = true ↔
      (1 ∉ numberValues (questionsOf obj) ∨ 67 ∉ numberValues (questionsOf obj)) := by
    rw [← hmem 1, ← hmem 67]
    cases setHas ns 1 <;> cases setHas ns 67 <;> simp
  rw [importHandler_valid P dom text answer net stored s obj ns hp hshape hns]
  have hload := loadDb_trace P net
    { s with storage := s.storage.setItem KEY_CUSTOM_DB (P.stringify obj) }
  have hnc : Event.confirm ∉ (loadDb P net
      { s with storage := s.storage.setItem KEY_CUSTOM_DB (P.stringify obj) }).trace := by
    intro hmem
    rcases hload _ hmem with h | h <;> exact Event.noConfusion h
  rw [← hask]
  constructor
  · cases hA : (!setHas ns 1 || !setHas ns 67)
    · simp only [Bool.false_and, Bool.false_eq_true, if_false]
      cases stored
      · rw [commit_store_failed]
        simp
      · obtain ⟨msg, htr⟩ := commit_trace P dom net s obj []
        rw [htr]
        simp [hnc]
    · cases answer
      · simp
      · simp only [Bool.not_true, Bool.and_false, Bool.false_eq_true, if_false, if_true]
        cases stored
        · rw [commit_store_failed]
          simp
        · obtain ⟨msg, htr⟩ := commit_trace P dom net s obj [.confirm]
          rw [htr]
          simp
  · intro hA hans
    subst hans
    simp [hA]

/-- C4, witness: a payload with the single question 5, the operator
declining. -/
theorem import_confirmation_witness :
    (Event.confirm ∈ (importHandler JsonRef.platform soundDom
        (some (JsonRef.stringify (.obj [("questions", .arr [.obj [("number", .num 5)]])])))
        false none true (initialState emptyStorage)).trace ↔
      (1 ∉ numberValues (questionsOf (.obj [("questions", .arr [.obj [("number", .num 5)]])])) ∨
       67 ∉ numberValues (questionsOf (.obj [("questions", .arr [.obj [("number", .num 5)]])])))) ∧
    ((1 ∉ numberValues (questionsOf (.obj [("questions", .arr [.obj [("number", .num 5)]])])) ∨
       67 ∉ numberValues (questionsOf (.obj [("questions", .arr [.obj [("number", .num 5)]])]))) →
      false = false →
      (importHandler JsonRef.platform soundDom
        (some (JsonRef.stringify (.obj [("questions", .arr [.obj [("number", .num 5)]])])))
        false none true (initialState emptyStorage)).state = initialState emptyStorage ∧
      (importHandler JsonRef.platform soundDom
        (some (JsonRef.stringify (.obj [("questions", .arr [.obj [("number", .num 5)]])])))
        false none true (initialState emptyStorage)).result = .declined ∧
      (importHandler JsonRef.platform soundDom
        (some (JsonRef.stringify (.obj [("questions", .arr [.obj [("number", .num 5)]])])))
        false none true (initialState emptyStorage)).trace = [.confirm]) :=
  import_confirmation JsonRef.platform soundDom _ false none true (initialState emptyStorage)
    (.obj [("questions", .arr [.obj [("number", .num 5)]])]) rfl rfl
    (by simp [questionsOf])

/-- C4, counterexample: the payload whose only question is `null` has an
array `questions` and its `number` values lack 1, yet no confirmation is
requested: the handler ends with an import error. -/
theorem import_no_confirmation_on_null_question :
    JsonRef.platform.parse (JsonRef.stringify nullQuestionDb) = some nullQuestionDb ∧
    hasArrayQuestions nullQuestionDb = true ∧
    1 ∉ numberValues (questionsOf nullQuestionDb) ∧
    (importHandler JsonRef.platform soundDom (some (JsonRef.stringify nullQuestionDb))
        true none true (initialState emptyStorage)).trace
        = [.alert (importErrorLabel ++ JsError.typeError.message)] ∧
    Event.confirm ∉ (importHandler JsonRef.platform soundDom
        (some (JsonRef.stringify nullQuestionDb)) true none true (initialState emptyStorage)).trace := by
  refine ⟨rfl, rfl, by simp [numberValues, questionsOf, nullQuestionDb, numberOf], rfl, ?_⟩
  have h : (importHandler JsonRef.platform soundDom
        (some (JsonRef.stringify nullQuestionDb)) true none true (initialState emptyStorage)).trace
        = [.alert (importErrorLabel ++ JsError.typeError.message)] := rfl
  rw [h]
  simp


/-- C2, as amended. For every storage state whose Custom entry is a
non-empty string that the host does not parse as JSON, or parses to a value
that is not an object with an array `questions`, and for every bundled fetch
that succeeds with a database `B` of that shape, `loadDb` removes the Custom
entry (and changes no other entry), sets `db` to `B`, and completes without
throwing. -/
theorem loadDb_recovers_from_corrupt_custom (P : Platform) (s : State) (c : String)
    (r : Response) (B : Json)
    (hc : s.storage KEY_CUSTOM_DB = some c) (hne : c ≠ "")
    (hbad : P.parse c = none ∨ ∃ v, P.parse c = some v ∧ hasArrayQuestions v = false)
    (hok : r.ok = true) (hB : P.parse r.body = some B) (hBq : hasArrayQuestions B = true) :
    (loadDb P (some r) s).state.storage KEY_CUSTOM_DB = none ∧
    (loadDb P (some r) s).state.storage = s.storage.removeItem KEY_CUSTOM_DB ∧
    (loadDb P (some r) s).state.db = B ∧
    (loadDb P (some r) s).result = .ok () := by
  obtain ⟨d, e⟩ := loadDb_corrupt P (some r) s c hc hne hbad
  rw [e, bundled_ok P r B _ _ hok hB hBq]
  exact ⟨by simp [Storage.removeItem], rfl, rfl, rfl⟩

theorem customOnly_apply (c : String) :
    (Storage.setItem emptyStorage KEY_CUSTOM_DB c) KEY_CUSTOM_DB = some c := by
  simp [Storage.setItem]

/-- C2, witness: the Custom entry is a text that is not JSON. -/
theorem loadDb_recovers_from_corrupt_custom_witness :
    (loadDb JsonRef.platform (some (okResponse sampleDb))
        (initialState (Storage.setItem emptyStorage KEY_CUSTOM_DB "oops"))).state.storage
        KEY_CUSTOM_DB = none ∧
    (loadDb JsonRef.platform (some (okResponse sampleDb))
        (initialState (Storage.setItem emptyStorage KEY_CUSTOM_DB "oops"))).state.storage
        = (Storage.setItem emptyStorage KEY_CUSTOM_DB "oops").removeItem KEY_CUSTOM_DB ∧
    (loadDb JsonRef.platform (some (okResponse sampleDb))
        (initialState (Storage.setItem emptyStorage KEY_CUSTOM_DB "oops"))).state.db = sampleDb ∧
    (loadDb JsonRef.platform (some (okResponse sampleDb))
        (initialState (Storage.setItem emptyStorage KEY_CUSTOM_DB "oops"))).result = .ok () :=
  loadDb_recovers_from_corrupt_custom JsonRef.platform
    (initialState (Storage.setItem emptyStorage KEY_CUSTOM_DB "oops")) "oops"
    (okResponse sampleDb) sampleDb (customOnly_apply "oops") (by decide) (Or.inl rfl)
    rfl rfl rfl

/-- C2, counterexample: the empty string is a string that is not valid
JSON; with it as the Custom entry and a bundled fetch that succeeds with a
well-shaped database, `loadDb` completes with the bundled database but
leaves the Custom entry in storage. -/
theorem loadDb_keeps_empty_custom :
    (initialState (Storage.setItem emptyStorage KEY_CUSTOM_DB "")).storage KEY_CUSTOM_DB
        = some "" ∧
    JsonRef.platform.parse "" = none ∧
    (okResponse sampleDb).ok = true ∧
    JsonRef.platform.parse (okResponse sampleDb).body = some sampleDb ∧
    hasArrayQuestions sampleDb = true ∧
    (loadDb JsonRef.platform (some (okResponse sampleDb))
        (initialState (Storage.setItem emptyStorage KEY_CUSTOM_DB ""))).state.storage
        KEY_CUSTOM_DB = some "" :=
  ⟨rfl, rfl, rfl, rfl, rfl, rfl⟩

/-- C5, counterexample: from the initial state with an empty storage, a
bundled fetch that succeeds with the JSON text of the empty object makes
`loadDb` end in a Load error with `db` set to that object, which has no
`questions`. -/
theorem db_shape_lost_on_load_error :
    hasArrayQuestions (initialState emptyStorage).db = true ∧
    (loadDb JsonRef.platform (some (okResponse (.obj []))) (initialState emptyStorage)).result
        = .error (.error "Неверный формат questions.json") ∧
    (loadDb JsonRef.platform (some (okResponse (.obj []))) (initialState emptyStorage)).state.db
        = .obj [] ∧
    hasArrayQuestions
      (loadDb JsonRef.platform (some (okResponse (.obj []))) (initialState emptyStorage)).state.db
        = false :=
  ⟨rfl, rfl, rfl, rfl⟩


theorem commit_result (P : Platform) (dom : Dom) (net : Option Response) (s : State)
    (obj : Json) (tr0 : List Event)
    (h : ∀ e, (importHandler.commit P dom net true s obj tr0).result ≠ .loadFailed e) :
    (loadDb P net
      { s with storage := s.storage.setItem KEY_CUSTOM_DB (P.stringify obj) }).result = .ok () := by
  cases hr : (loadDb P net
      { s with storage := s.storage.setItem KEY_CUSTOM_DB (P.stringify obj) }).result with
  | ok u => rfl
  | error e =>
    exfalso
    apply h e
    simp [importHandler.commit, hr, importCatch]

theorem importHandler_cases (P : Platform) (dom : Dom) (file : Option String) (answer : Bool)
    (net : Option Response) (stored : Bool) (s : State) :
    ((importHandler P dom file answer net stored s).state = s ∧
      ∀ e, (importHandler P dom file answer net stored s).result ≠ .loadFailed e) ∨
    ∃ obj tr0, importHandler P dom file answer net stored s
      = importHandler.commit P dom net true s obj tr0 := by
  cases stored
  · unfold importHandler
    repeat' split
    all_goals first
      | exact Or.inl ⟨rfl, fun e h => ImportOutcome.noConfusion h⟩
      | (simp only []
         split
         · exact Or.inl ⟨rfl, fun e h => ImportOutcome.noConfusion h⟩
         · exact Or.inl ⟨rfl, fun e h => ImportOutcome.noConfusion h⟩)
  · unfold importHandler
    repeat' split
    all_goals first
      | exact Or.inr ⟨_, _, rfl⟩
      | exact Or.inl ⟨rfl, fun e h => ImportOutcome.noConfusion h⟩
      | (simp only []
         split
         · exact Or.inl ⟨rfl, fun e h => ImportOutcome.noConfusion h⟩
         · exact Or.inr ⟨_, _, rfl⟩)

theorem resetHandler_cases (P : Platform) (dom : Dom) (answer : Bool)
    (net : Option Response) (s : State) :
    (resetHandler P dom answer net s).state = s ∨
    ((∃ e, (resetHandler P dom answer net s).result = .loadFailed e) ∨
      ((loadDb P net { s with storage := s.storage.removeItem KEY_CUSTOM_DB }).result = .ok () ∧
        (resetHandler P dom answer net s).state.db =
          (loadDb P net { s with storage := s.storage.removeItem KEY_CUSTOM_DB }).state.db)) := by
  unfold resetHandler
  cases answer
  · exact Or.inl rfl
  · right
    cases hr : (loadDb P net { s with storage := s.storage.removeItem KEY_CUSTOM_DB }).result with
    | error e => left; exact ⟨e, by simp [hr]⟩
    | ok u =>
      right
      refine ⟨rfl, ?_⟩
      simp only [Bool.not_true, Bool.false_eq_true, if_false, hr]
      repeat' split
      all_goals rfl

/-- C5, as amended. The initial `db` is an object whose `questions` is an
array; a run of `loadDb` that completes without throwing ends with such a
`db`; and a run of the import handler or of the reset handler that starts
with such a `db` and does not end in an error thrown by `loadDb` ends with
such a `db`, for every storage content and every fetch result. -/
theorem db_shape_invariant (P : Platform) (dom : Dom) (net : Option Response) (s : State) :
    hasArrayQuestions (initialState s.storage).db = true ∧
    ((loadDb P net s).result = .ok () → hasArrayQuestions (loadDb P net s).state.db = true) ∧
    (∀ file answer stored, hasArrayQuestions s.db = true →
      (∀ e, (importHandler P dom file answer net stored s).result ≠ .loadFailed e) →
      hasArrayQuestions (importHandler P dom file answer net stored s).state.db = true) ∧
    (∀ answer, hasArrayQuestions s.db = true →
      (∀ e, (resetHandler P dom answer net s).result ≠ .loadFailed e) →
      hasArrayQuestions (resetHandler P dom answer net s).state.db = true) := by
  refine ⟨rfl, loadDb_result_ok P net s, ?_, ?_⟩
  · intro file answer stored hs hno
    rcases importHandler_cases P dom file answer net stored s with ⟨h, -⟩ | ⟨obj, tr0, h⟩
    · rw [h]; exact hs
    · rw [h] at hno ⊢
      rw [commit_db]
      exact loadDb_result_ok P net _ (commit_result P dom net s obj tr0 hno)
  · intro answer hs hno
    rcases resetHandler_cases P dom answer net s with h | ⟨e, h⟩ | ⟨hok, h⟩
    · rw [h]; exact hs
    · exact absurd h (hno e)
    · rw [h]
      exact loadDb_result_ok P net _ hok

/-- C5, witness: a confirmed reset from the initial state, with a bundled
fetch that succeeds with the sample database. -/
theorem db_shape_invariant_witness :
    hasArrayQuestions (resetHandler JsonRef.platform soundDom true (some (okResponse sampleDb))
      (initialState emptyStorage)).state.db = true :=
  (db_shape_invariant JsonRef.platform soundDom (some (okResponse sampleDb))
    (initialState emptyStorage)).2.2.2 true rfl
    (by intro e h; exact ResetOutcome.noConfusion h)


theorem clamp_idem (n : Option Int) : clamp (clamp n 1 67) 1 67 = clamp n 1 67 := by
  cases n with
  | none => rfl
  | some n =>
    simp only [clamp, Option.map_some', Option.some.injEq]
    simp only [max_def, min_def]
    split_ifs <;> omega

theorem fillSelect_congr (dom : Dom) (s t : State) (h : s.db = t.db) :
    fillSelect dom s = fillSelect dom t := by
  simp [fillSelect, h]

/-- A confirmed reset when the bundled fetch succeeds with a well-shaped
database: the Custom entry is removed, `db` is the bundled database, and the
run ends as `fillSelect` and `render` end on it. -/
theorem resetHandler_ok (P : Platform) (dom : Dom) (r : Response) (B : Json) (s : State)
    (hok : r.ok = true) (hB : P.parse r.body = some B) (hBq : hasArrayQuestions B = true) :
    resetHandler P dom true (some r) s =
      match fillSelect dom { s with db := B } with
      | .error e =>
        ⟨{ s with storage := s.storage.removeItem KEY_CUSTOM_DB, db := B }, .viewFailed e,
          [.confirm, .loadDb, .fetch]⟩
      | .ok () =>
        ⟨{ storage := (s.storage.removeItem KEY_CUSTOM_DB).setItem KEY_LAST_Q
              (numberToString (clamp s.current 1 67)),
           db := B, current := clamp s.current 1 67 },
          if dom.renderView B (clamp s.current 1 67) then .done else .viewFailed .typeError,
          [.confirm, .loadDb, .fetch]⟩ := by
  have hl : loadDb P (some r) { s with storage := s.storage.removeItem KEY_CUSTOM_DB } =
      ⟨{ s with storage := s.storage.removeItem KEY_CUSTOM_DB, db := B }, .ok (), [.fetch]⟩ := by
    rw [loadDb_absent _ _ _ (by simp [Storage.removeItem]), bundled_ok P r B _ _ hok hB hBq]
    rfl
  have hf : fillSelect dom { s with storage := s.storage.removeItem KEY_CUSTOM_DB, db := B }
      = fillSelect dom { s with db := B } := fillSelect_congr _ _ _ rfl
  simp only [resetHandler, Bool.not_true, Bool.false_eq_true, if_false, hl, hf]
  cases fillSelect dom { s with db := B } with
  | error e => rfl
  | ok u =>
    simp only [render]
    cases dom.renderView B (clamp s.current 1 67) <;> rfl


theorem storage_reset_again (st : Storage) (v : String) :
    ((st.removeItem KEY_CUSTOM_DB).setItem KEY_LAST_Q v).removeItem KEY_CUSTOM_DB
      = (st.removeItem KEY_CUSTOM_DB).setItem KEY_LAST_Q v := by
  funext k
  by_cases h1 : k = KEY_CUSTOM_DB
  · subst h1
    simp [Storage.removeItem, Storage.setItem, key_custom_ne_last]
  · simp [Storage.removeItem, Storage.setItem, h1]

theorem storage_set_again (st : Storage) (k v : String) :
    (st.setItem k v).setItem k v = st.setItem k v := by
  funext j
  by_cases h : j = k <;> simp [Storage.setItem, h]

theorem storage_remove_again (st : Storage) (k : String) :
    (st.removeItem k).removeItem k = st.removeItem k := by
  funext j
  by_cases h : j = k <;> simp [Storage.removeItem, h]

/-- C9, as amended. For every storage state and every bundled fetch that
succeeds with the same well-shaped database `B` each time, two confirmed
resets in succession both end with the Custom entry absent and `db = B`; the
second reset leaves storage exactly as the first left it, raises no Load
error, ends as the first ended, and completes without any error when
`fillSelect` and `render` complete on `B`. -/
theorem reset_twice (P : Platform) (dom : Dom) (r : Response) (B : Json) (s : State)
    (hok : r.ok = true) (hB : P.parse r.body = some B) (hBq : hasArrayQuestions B = true) :
    let r1 := resetHandler P dom true (some r) s
    let r2 := resetHandler P dom true (some r) r1.state
    r1.state.storage KEY_CUSTOM_DB = none ∧ r1.state.db = B ∧
    r2.state.storage KEY_CUSTOM_DB = none ∧ r2.state.db = B ∧
    r2.state.storage = r1.state.storage ∧
    (∀ e, r2.result ≠ .loadFailed e) ∧
    r2.result = r1.result ∧
    (fillSelect dom { s with db := B } = .ok () →
      dom.renderView B (clamp s.current 1 67) = true → r2.result = .done) := by
  intro r1 r2
  have e1 : r1 = _ := resetHandler_ok P dom r B s hok hB hBq
  have e2 : r2 = _ := resetHandler_ok P dom r B r1.state hok hB hBq
  have hf2 : fillSelect dom { r1.state with db := B } = fillSelect dom { s with db := B } :=
    fillSelect_congr _ _ _ rfl
  rw [hf2] at e2
  cases hf : fillSelect dom { s with db := B } with
  | error e =>
    rw [hf] at e1 e2
    simp only at e1 e2
    rw [e1] at e2
    simp only [storage_remove_again] at e2
    rw [e2, e1]
    refine ⟨by simp [Storage.removeItem], rfl, by simp [Storage.removeItem], rfl, rfl, ?_, rfl, ?_⟩
    · intro e0 h; exact ResetOutcome.noConfusion h
    · intro h; exact Except.noConfusion h
  | ok u =>
    rw [hf] at e1 e2
    simp only at e1 e2
    rw [e1] at e2
    simp only [storage_reset_again, clamp_idem, storage_set_again] at e2
    rw [e2, e1]
    refine ⟨by simp [Storage.removeItem, Storage.setItem, key_custom_ne_last], rfl,
      by simp [Storage.removeItem, Storage.setItem, key_custom_ne_last], rfl, rfl, ?_, rfl, ?_⟩
    · intro e0 h
      simp only at h
      split at h <;> exact ResetOutcome.noConfusion h
    · intro _ hv
      simp [hv]

/-- C9, witness: two resets from the initial state with a Custom entry, the
bundled fetch succeeding with the sample database. -/
theorem reset_twice_witness :
    let r1 := resetHandler JsonRef.platform soundDom true (some (okResponse sampleDb))
      (initialState (Storage.setItem emptyStorage KEY_CUSTOM_DB "oops"))
    let r2 := resetHandler JsonRef.platform soundDom true (some (okResponse sampleDb)) r1.state
    r1.state.storage KEY_CUSTOM_DB = none ∧ r1.state.db = sampleDb ∧
    r2.state.storage KEY_CUSTOM_DB = none ∧ r2.state.db = sampleDb ∧
    r2.state.storage = r1.state.storage ∧
    (∀ e, r2.result ≠ .loadFailed e) ∧
    r2.result = r1.result ∧
    (fillSelect soundDom
        { initialState (Storage.setItem emptyStorage KEY_CUSTOM_DB "oops") with db := sampleDb }
        = .ok () →
      soundDom.renderView sampleDb
        (clamp (initialState (Storage.setItem emptyStorage KEY_CUSTOM_DB "oops")).current 1 67)
        = true → r2.result = .done) :=
  reset_twice JsonRef.platform soundDom (okResponse sampleDb) sampleDb
    (initialState (Storage.setItem emptyStorage KEY_CUSTOM_DB "oops")) rfl rfl rfl

/-- C9, counterexample: the bundled fetch succeeds each time with the
well-shaped database whose only question is `null`; on a DOM whose
operations never throw, the second confirmed reset ends in the `TypeError`
that `fillSelect` throws on reading `q.number`. -/
theorem reset_raises_on_null_question :
    (okResponse nullQuestionDb).ok = true ∧
    JsonRef.platform.parse (okResponse nullQuestionDb).body = some nullQuestionDb ∧
    hasArrayQuestions nullQuestionDb = true ∧
    (resetHandler JsonRef.platform soundDom true (some (okResponse nullQuestionDb))
      (resetHandler JsonRef.platform soundDom true (some (okResponse nullQuestionDb))
        (initialState emptyStorage)).state).result = .viewFailed .typeError :=
  ⟨rfl, rfl, rfl, rfl⟩

/-! ## The documents base URL: what is written under `KEY_DOCS_BASE` -/

theorem key_docs_ne_last : KEY_DOCS_BASE ≠ KEY_LAST_Q := by decide

theorem docsBaseUrlChange_writes (dom : Dom) (input : String) (s : State) :
    (docsBaseUrlChange dom input s).1.storage KEY_DOCS_BASE = some (normalizeBaseUrl input) := by
  simp [docsBaseUrlChange, render, Storage.setItem, key_docs_ne_last]

theorem restoreSettings_writes (s : State) :
    (main.restoreSettings s).storage KEY_DOCS_BASE = some (initBase (s.storage KEY_DOCS_BASE)) := by
  simp [main.restoreSettings, Storage.setItem]

theorem initBase_cases (base : Option String) :
    initBase base = "docs/" ∨ base = some (initBase base) := by
  unfold initBase
  cases base with
  | none => exact Or.inl rfl
  | some b =>
    simp only
    split
    · exact Or.inr rfl
    · exact Or.inl rfl

theorem initBase_ne_empty (base : Option String) : initBase base ≠ "" := by
  unfold initBase
  cases base with
  | none => decide
  | some b =>
    simp only
    split
    · rename_i h
      simp only [Bool.and_eq_true, bne_iff_ne, ne_eq] at h
      exact h.1
    · decide

/-- C10, as amended. For every string `s`, `normalizeBaseUrl s` is empty or
ends with a slash, and `normalizeBaseUrl` is idempotent; the `docsBaseUrl`
change handler writes `normalizeBaseUrl` of its input under `KEY_DOCS_BASE`,
so a value that is empty or ends with a slash, for every prior storage
content; `main` writes there either `docs/` or the entry it found, never an
empty value, so a value that ends with a slash whenever the entry it found
was absent, empty or ended with a slash. -/
theorem docsBase_normalised (dom : Dom) (input : String) (s : State) :
    (normalizeBaseUrl input = "" ∨ endsWithSlash (normalizeBaseUrl input) = true) ∧
    normalizeBaseUrl (normalizeBaseUrl input) = normalizeBaseUrl input ∧
    (∃ v, (docsBaseUrlChange dom input s).1.storage KEY_DOCS_BASE = some v ∧
      (v = "" ∨ endsWithSlash v = true)) ∧
    (∃ v, (main.restoreSettings s).storage KEY_DOCS_BASE = some v ∧ v ≠ "" ∧
      (v = "docs/" ∨ s.storage KEY_DOCS_BASE = some v)) ∧
    ((∀ b, s.storage KEY_DOCS_BASE = some b → b = "" ∨ endsWithSlash b = true) →
      ∃ v, (main.restoreSettings s).storage KEY_DOCS_BASE = some v ∧ endsWithSlash v = true) := by
  refine ⟨normalizeBaseUrl_shape input, normalizeBaseUrl_idem input,
    ⟨_, docsBaseUrlChange_writes dom input s, normalizeBaseUrl_shape input⟩,
    ⟨_, restoreSettings_writes s, initBase_ne_empty _, initBase_cases _⟩, ?_⟩
  intro h
  refine ⟨_, restoreSettings_writes s, ?_⟩
  rcases initBase_cases (s.storage KEY_DOCS_BASE) with h1 | h1
  · rw [h1]; decide
  · rcases h _ h1 with h2 | h2
    · exact absurd h2 (initBase_ne_empty _)
    · exact h2

/-- C10, witness: the change handler on a padded URL, and `main` over a
storage whose entry ends with a slash. -/
theorem docsBase_normalised_witness :
    ∃ v, (main.restoreSettings (initialState
        (Storage.setItem emptyStorage KEY_DOCS_BASE "slides/"))).storage KEY_DOCS_BASE = some v ∧
      endsWithSlash v = true :=
  (docsBase_normalised soundDom " https://example.org/docs "
    (initialState (Storage.setItem emptyStorage KEY_DOCS_BASE "slides/"))).2.2.2.2
    (by
      intro b hb
      have : b = "slides/" := by
        simpa [initialState, Storage.setItem] using hb.symm
      subst this
      exact Or.inr (by decide))

/-- C10, counterexample: with the entry `docs` (no final slash) found in
storage, `main` writes `docs` back under `KEY_DOCS_BASE`: a value that is
neither empty nor ends with a slash. -/
theorem main_writes_unnormalised_base :
    (main.restoreSettings (initialState
        (Storage.setItem emptyStorage KEY_DOCS_BASE "docs"))).storage KEY_DOCS_BASE
        = some "docs" ∧
    "docs" ≠ "" ∧ endsWithSlash "docs" = false :=
  ⟨by decide, by decide, by decide⟩


/-! ## The service worker -/

namespace SW

theorem lookup_eq_none_iff (cs : CacheStorage) (n : String) :
    cs.lookup n = none ↔ n ∉ cs.keys := by
  induction cs with
  | nil => simp [CacheStorage.keys]
  | cons e cs ih =>
    obtain ⟨k, c⟩ := e
    simp only [CacheStorage.keys, List.map_cons, List.mem_cons, not_or] at ih ⊢
    by_cases h : n = k
    · subst h
      simp [List.lookup]
    · have h2 : (n == k) = false := by simpa using h
      simp [List.lookup, h2, h, ih]

theorem activate_fold (ks : List String) (cs : CacheStorage) :
    ks.foldl (fun cs k => if k != CACHE_NAME then CacheStorage.delete cs k else cs) cs
      = cs.filter (fun e => decide (e.1 = CACHE_NAME ∨ e.1 ∉ ks)) := by
  induction ks generalizing cs with
  | nil => simp
  | cons k ks ih =>
    rw [List.foldl_cons, ih]
    by_cases hk : k = CACHE_NAME
    · subst hk
      simp only [bne_self_eq_false, Bool.false_eq_true, if_false]
      apply List.filter_congr
      intro e _
      by_cases he : e.1 = CACHE_NAME <;> simp [he]
    · have hk2 : (k != CACHE_NAME) = true := by simpa using hk
      simp only [hk2, if_true, CacheStorage.delete, List.filter_filter]
      apply List.filter_congr
      intro e _
      by_cases he : e.1 = CACHE_NAME
      · have hk3 : ¬CACHE_NAME = k := fun h => hk h.symm
        simp [he, hk3]
      · by_cases hek : e.1 = k
        · simp [hek, hk]
        · simp [he, hek]

theorem activate_eq_filter (cs : CacheStorage) :
    activate cs = cs.filter (fun e => decide (e.1 = CACHE_NAME)) := by
  unfold activate
  rw [activate_fold]
  apply List.filter_congr
  intro e he
  have : e.1 ∈ cs.keys := List.mem_map_of_mem _ he
  simp [this]

theorem store_filter (cs : CacheStorage) (c : Cache) (hnd : cs.keys.Nodup)
    (hmem : CACHE_NAME ∈ cs.keys) :
    (cs.store CACHE_NAME c).filter (fun e => decide (e.1 = CACHE_NAME)) = [(CACHE_NAME, c)] := by
  induction cs with
  | nil => simp [CacheStorage.keys] at hmem
  | cons e cs ih =>
    obtain ⟨k, c0⟩ := e
    simp only [CacheStorage.keys, List.map_cons, List.nodup_cons, List.mem_cons] at hnd hmem ih
    by_cases hk : k = CACHE_NAME
    · subst hk
      have hrest : ∀ e ∈ cs, e.1 ≠ CACHE_NAME := by
        intro e he h
        exact hnd.1 (h ▸ List.mem_map_of_mem _ he)
      have : (CacheStorage.store cs CACHE_NAME c).filter
          (fun e => decide (e.1 = CACHE_NAME)) = [] := by
        rw [List.filter_eq_nil_iff]
        intro e he
        simp only [CacheStorage.store, List.mem_map] at he
        obtain ⟨a, ha, rfl⟩ := he
        simp [hrest a ha]
      simp only [CacheStorage.store, List.map_cons, if_true] at this ⊢
      simp [List.filter_cons, this]
    · have hm : CACHE_NAME ∈ List.map Prod.fst cs := by
        rcases hmem with h | h
        · exact absurd h.symm hk
        · exact h
      have := ih hnd.2 hm
      simp only [CacheStorage.store, List.map_cons, hk, if_false] at this ⊢
      simp [List.filter_cons, hk, this]

theorem assets_no_fragment : ∀ u ∈ ASSETS, stripFragment u = u := by decide

theorem addAll_fold (net : String → Option Response) (urls : List String) (c : Cache)
    (h : ∀ u ∈ urls, ∃ r, net u = some r) (hs : ∀ u ∈ urls, stripFragment u = u)
    (u : String) :
    (urls.foldl (fun c u => match net u with
      | some r => c.put u r
      | none => c) c) u = if u ∈ urls then net u else c u := by
  induction urls generalizing c with
  | nil => simp
  | cons a urls ih =>
    obtain ⟨r, hr⟩ := h a (List.mem_cons_self _ _)
    have ha : stripFragment a = a := hs a (List.mem_cons_self _ _)
    rw [List.foldl_cons, ih _ (fun u hu => h u (List.mem_cons_of_mem _ hu))
      (fun u hu => hs u (List.mem_cons_of_mem _ hu))]
    simp only [hr, List.mem_cons]
    by_cases h1 : u ∈ urls
    · simp [h1]
    · by_cases h2 : u = a
      · subst h2
        simp [h1, Cache.put, hr, ha]
      · simp [h1, h2, Cache.put, ha]

theorem addAll_some (net : String → Option Response) (urls : List String) (c c1 : Cache)
    (hs : ∀ u ∈ urls, stripFragment u = u)
    (h : Cache.addAll net urls c = some c1) :
    (∀ u ∈ urls, ∃ r, net u = some r ∧ r.ok = true) ∧
    ∀ u, c1 u = if u ∈ urls then net u else c u := by
  unfold Cache.addAll at h
  split at h
  · rename_i hall
    have hall3 : ∀ u ∈ urls, ∃ r, net u = some r ∧ r.ok = true := by
      intro u hu
      have := List.all_eq_true.1 hall u hu
      cases hn : net u with
      | none => simp [hn] at this
      | some r => exact ⟨r, rfl, by simpa [hn] using this⟩
    refine ⟨hall3, ?_⟩
    intro u
    simp only [Option.some.injEq] at h
    rw [← h]
    exact addAll_fold net urls c (fun u hu => (hall3 u hu).imp fun _ hr => hr.1) hs u
  · exact Option.noConfusion h

/-- What `install` leaves when it succeeds: the caches it found, with a
cache `CACHE_NAME` (created if there was none) that holds the fetched
response of every asset and, for any other URL, what it held before. -/
theorem install_ok (net : String → Option Response) (cs : CacheStorage)
    (hok : (install net cs).2 = true) :
    ∃ cs1 c0 c1, (install net cs).1 = CacheStorage.store cs1 CACHE_NAME c1 ∧
      CacheStorage.open cs CACHE_NAME = (cs1, c0) ∧
      (∀ u ∈ ASSETS, ∃ r, net u = some r ∧ r.ok = true) ∧
      ∀ u, c1 u = if u ∈ ASSETS then net u else c0 u := by
  unfold install at hok ⊢
  cases ho : CacheStorage.open cs CACHE_NAME with
  | mk cs1 c0 =>
    rw [ho] at hok
    simp only at hok ⊢
    cases ha : Cache.addAll net ASSETS c0 with
    | none => simp [ha] at hok
    | some c1 =>
      obtain ⟨h1, h2⟩ := addAll_some net ASSETS c0 c1 assets_no_fragment ha
      exact ⟨cs1, c0, c1, rfl, rfl, h1, h2⟩

theorem open_keys (cs : CacheStorage) (hnd : cs.keys.Nodup) :
    (CacheStorage.open cs CACHE_NAME).1.keys.Nodup ∧
    CACHE_NAME ∈ (CacheStorage.open cs CACHE_NAME).1.keys ∧
    ((CacheStorage.open cs CACHE_NAME).2 = Cache.empty ∧ cs.lookup CACHE_NAME = none ∨
      cs.lookup CACHE_NAME = some (CacheStorage.open cs CACHE_NAME).2) := by
  unfold CacheStorage.open
  cases hl : cs.lookup CACHE_NAME with
  | none =>
    have hn := (lookup_eq_none_iff cs CACHE_NAME).1 hl
    refine ⟨?_, by simp [CacheStorage.keys], Or.inl ⟨rfl, rfl⟩⟩
    simp only [CacheStorage.keys, List.map_append, List.map_cons, List.map_nil] at hn ⊢
    rw [List.nodup_append]
    refine ⟨hnd, List.nodup_singleton _, ?_⟩
    intro a ha hb
    simp only [List.mem_singleton] at hb
    subst hb
    exact hn ha
  | some c =>
    refine ⟨hnd, ?_, Or.inr rfl⟩
    by_contra hn
    rw [← lookup_eq_none_iff, hl] at hn
    exact Option.noConfusion hn

/-- C6, as amended. For every initial set of caches with distinct names, a
successful install followed by activate leaves exactly one cache, named `CACHE_NAME`;
it holds, for every request in `ASSETS`, the response fetched during the
install, and its entries are the requests in `ASSETS` together with the
entries that a cache named `CACHE_NAME` already held: exactly the requests
in `ASSETS` when there was no such cache. -/
theorem install_then_activate (net : String → Option Response) (cs : CacheStorage)
    (hnd : cs.keys.Nodup) (hok : (install net cs).2 = true) :
    ∃ c, activate (install net cs).1 = [(CACHE_NAME, c)] ∧
      (∀ u ∈ ASSETS, c u = net u ∧ (c u).isSome = true) ∧
      (∀ u, (c u).isSome = true ↔
        (u ∈ ASSETS ∨ ∃ c0, cs.lookup CACHE_NAME = some c0 ∧ (c0 u).isSome = true)) ∧
      (CACHE_NAME ∉ cs.keys → ∀ u, (c u).isSome = true ↔ u ∈ ASSETS) := by
  obtain ⟨cs1, c0, c1, hi, ho, hnet, hc1⟩ := install_ok net cs hok
  obtain ⟨hk1, hk2, hk3⟩ := open_keys cs hnd
  rw [ho] at hk1 hk2 hk3
  simp only at hk1 hk2 hk3
  have hassets : ∀ u ∈ ASSETS, c1 u = net u ∧ (c1 u).isSome = true := by
    intro u hu
    obtain ⟨r, hr, -⟩ := hnet u hu
    rw [hc1 u, if_pos hu, hr]
    exact ⟨rfl, rfl⟩
  refine ⟨c1, ?_, hassets, ?_, ?_⟩
  · rw [hi, activate_eq_filter]
    exact store_filter cs1 c1 hk1 hk2
  · intro u
    by_cases hu : u ∈ ASSETS
    · simp [hu, (hassets u hu).2]
    · rw [hc1 u, if_neg hu]
      rcases hk3 with ⟨he, hl⟩ | hl
      · simp [he, hl, hu, Cache.empty]
      · simp [hl, hu]
  · intro hn u
    have hl := (lookup_eq_none_iff cs CACHE_NAME).2 hn
    by_cases hu : u ∈ ASSETS
    · simp [hu, (hassets u hu).2]
    · rw [hc1 u, if_neg hu]
      rcases hk3 with ⟨he, -⟩ | hl2
      · simp [he, hu, Cache.empty]
      · rw [hl] at hl2
        exact Option.noConfusion hl2

theorem allOk_install (cs : CacheStorage) :
    (install (fun u => some { ok := true, body := u }) cs).2 = true := by
  unfold install
  cases CacheStorage.open cs CACHE_NAME with
  | mk cs1 c0 => rfl

/-- C6, witness: an old cache `esn-pwa-v1` and every asset fetched. -/
theorem install_then_activate_witness :
    ∃ c, activate (install (fun u => some { ok := true, body := u })
        [("esn-pwa-v1", Cache.empty)]).1 = [(CACHE_NAME, c)] ∧
      (∀ u ∈ ASSETS, c u = (fun u => some { ok := true, body := u }) u ∧ (c u).isSome = true) ∧
      (∀ u, (c u).isSome = true ↔
        (u ∈ ASSETS ∨ ∃ c0, List.lookup CACHE_NAME [("esn-pwa-v1", Cache.empty)] = some c0 ∧
          (c0 u).isSome = true)) ∧
      (CACHE_NAME ∉ CacheStorage.keys [("esn-pwa-v1", Cache.empty)] →
        ∀ u, (c u).isSome = true ↔ u ∈ ASSETS) :=
  install_then_activate (fun u => some { ok := true, body := u })
    [("esn-pwa-v1", Cache.empty)] (by decide) (allOk_install _)

/-- C6, counterexample: a cache named `CACHE_NAME` that already holds an
entry for `extra.png`. The install succeeds, and after activate the cache
still holds `extra.png`, which is not in `ASSETS`. -/
theorem install_keeps_other_entries :
    CacheStorage.keys
      [(CACHE_NAME, Cache.put Cache.empty "extra.png" { ok := true, body := "x" })]
      = [CACHE_NAME] ∧
    (install (fun u => some { ok := true, body := u })
      [(CACHE_NAME, Cache.put Cache.empty "extra.png" { ok := true, body := "x" })]).2 = true ∧
    ((activate (install (fun u => some { ok := true, body := u })
      [(CACHE_NAME, Cache.put Cache.empty "extra.png" { ok := true, body := "x" })]).1).map
        fun e => (e.1, (e.2 "extra.png").isSome)) = [(CACHE_NAME, true)] ∧
    "extra.png" ∉ ASSETS :=
  ⟨rfl, rfl, by decide, by decide⟩

theorem lookup_store (cs : CacheStorage) (n : String) (c0 c : Cache)
    (h : cs.lookup n = some c0) : (cs.store n c).lookup n = some c := by
  induction cs with
  | nil => simp at h
  | cons e cs ih =>
    obtain ⟨k, c1⟩ := e
    by_cases hk : n = k
    · subst hk
      have e : CacheStorage.store ((n, c1) :: cs) n c = (n, c) :: CacheStorage.store cs n c := by
        simp [CacheStorage.store]
      rw [e]
      simp [List.lookup]
    · have h2 : (n == k) = false := by simpa using hk
      have hk3 : ¬k = n := fun h => hk h.symm
      have e : CacheStorage.store ((k, c1) :: cs) n c = (k, c1) :: CacheStorage.store cs n c := by
        simp [CacheStorage.store, hk3]
      simp only [List.lookup, h2] at h
      rw [e]
      simp only [List.lookup, h2]
      exact ih h

/-- A run of the fetch handler, for any request and any network result,
keeps every entry of the `CACHE_NAME` cache: it only adds an entry for a
request that had none. -/
theorem fetch_keeps_entry (selfOrigin : String) (net : Option Response) (t : Request)
    (cs : CacheStorage) (c : Cache) (k : String) (r : Response)
    (hc : cs.lookup CACHE_NAME = some c) (hk : c k = some r) :
    ∃ c1, (fetchHandler selfOrigin net t cs).caches.lookup CACHE_NAME = some c1 ∧
      c1 k = some r := by
  unfold fetchHandler
  by_cases ho : t.origin = selfOrigin
  · simp only [ho, bne_self_eq_false, Bool.false_eq_true, if_false, CacheStorage.open, hc]
    cases hm : c.matchReq t with
    | some cached => exact ⟨c, hc, hk⟩
    | none =>
      cases net with
      | none => exact ⟨c, hc, hk⟩
      | some fresh =>
        by_cases hg : t.method = "GET"
        · cases hf : fresh.ok
          · simp only [hg, hf, decide_True, Bool.and_false, Bool.false_eq_true, if_false]
            exact ⟨c, hc, hk⟩
          · simp only [hg, hf, decide_True, Bool.and_self, if_true]
            refine ⟨c.put t.url fresh, lookup_store cs CACHE_NAME c _ hc, ?_⟩
            have hne : k ≠ stripFragment t.url := by
              intro h
              rw [Cache.matchReq, if_pos hg, Cache.matchUrl, ← h, hk] at hm
              exact Option.noConfusion hm
            simp [Cache.put, hne, hk]
        · simp only [hg, decide_False, Bool.false_and, Bool.false_eq_true, if_false]
          exact ⟨c, hc, hk⟩
  · have ho2 : (t.origin != selfOrigin) = true := by simpa using ho
    simp only [ho2, if_true]
    exact ⟨c, hc, hk⟩

theorem traffic_keeps_entry (selfOrigin : String) (traffic : List (Request × Option Response))
    (cs : CacheStorage) (c : Cache) (k : String) (r : Response)
    (hc : cs.lookup CACHE_NAME = some c) (hk : c k = some r) :
    ∃ c1, (traffic.foldl (fun cs t => (fetchHandler selfOrigin t.2 t.1 cs).caches) cs).lookup
        CACHE_NAME = some c1 ∧ c1 k = some r := by
  induction traffic generalizing cs c with
  | nil => exact ⟨c, hc, hk⟩
  | cons t traffic ih =>
    obtain ⟨c1, h1, h2⟩ := fetch_keeps_entry selfOrigin t.2 t.1 cs c k r hc hk
    rw [List.foldl_cons]
    exact ih _ c1 h1 h2

theorem fetch_hit (selfOrigin : String) (net : Option Response) (req : Request)
    (cs : CacheStorage) (c : Cache) (cached : Response)
    (horigin : req.origin = selfOrigin) (hc : cs.lookup CACHE_NAME = some c)
    (hm : c.matchReq req = some cached) :
    fetchHandler selfOrigin net req cs
      = ⟨cs, .respondWith (some cached), [.openCache, .matchReq req.url]⟩ := by
  simp [fetchHandler, horigin, CacheStorage.open, hc, hm]

/-- C7. For every same-origin request for which the `CACHE_NAME` cache has a
matching entry, the fetch handler responds with the cached response, its
only operations are opening the cache and the lookup (no network fetch, no
`put`), and the caches are left as they were; and after any further traffic
through the fetch handler (any requests, of any origin and method, with any
network results, the cache not being replaced), the same request is again
answered with that cached response, without a network fetch and without a
change to the caches. -/
theorem fetch_cache_first (selfOrigin : String) (net : Option Response) (req : Request)
    (cs : CacheStorage) (c : Cache) (cached : Response)
    (horigin : req.origin = selfOrigin) (hc : cs.lookup CACHE_NAME = some c)
    (hm : c.matchReq req = some cached) :
    fetchHandler selfOrigin net req cs
      = ⟨cs, .respondWith (some cached), [.openCache, .matchReq req.url]⟩ ∧
    ∀ (traffic : List (Request × Option Response)) (later : Option Response),
      fetchHandler selfOrigin later req
          (traffic.foldl (fun cs t => (fetchHandler selfOrigin t.2 t.1 cs).caches) cs)
        = ⟨traffic.foldl (fun cs t => (fetchHandler selfOrigin t.2 t.1 cs).caches) cs,
            .respondWith (some cached), [.openCache, .matchReq req.url]⟩ := by
  refine ⟨fetch_hit selfOrigin net req cs c cached horigin hc hm, ?_⟩
  intro traffic later
  have hget : req.method = "GET" := by
    by_contra h
    simp [Cache.matchReq, h] at hm
  have hk : c (stripFragment req.url) = some cached := by
    simpa [Cache.matchReq, hget, Cache.matchUrl] using hm
  obtain ⟨c1, h1, h2⟩ := traffic_keeps_entry selfOrigin traffic cs c _ cached hc hk
  exact fetch_hit selfOrigin later req _ c1 cached horigin h1
    (by simp [Cache.matchReq, hget, Cache.matchUrl, h2])

/-- C7, witness: `index.html` is cached; a `GET` of `index.html#top` is
served from the cache, and it still is after a miss on `data.json` that was
fetched and stored and a request to another origin. -/
theorem fetch_cache_first_witness :
    fetchHandler appOrigin none indexRequest shellCaches
      = ⟨shellCaches, .respondWith (some indexPage), [.openCache, .matchReq "index.html#top"]⟩ ∧
    (fetchHandler appOrigin none indexRequest
      (List.foldl (fun cs t => (fetchHandler appOrigin t.2 t.1 cs).caches) shellCaches
        [(dataRequest, some { ok := true, body := "data" }),
         ({ url := "https://cdn.example/lib.js", origin := "https://cdn.example",
            method := "GET" }, none)])).served
      = .respondWith (some indexPage) :=
  ⟨(fetch_cache_first appOrigin none indexRequest shellCaches
      (Cache.put Cache.empty "index.html" indexPage) indexPage rfl rfl rfl).1,
    congrArg FetchRun.served
      ((fetch_cache_first appOrigin none indexRequest shellCaches
        (Cache.put Cache.empty "index.html" indexPage) indexPage rfl rfl rfl).2
        [(dataRequest, some { ok := true, body := "data" }),
         ({ url := "https://cdn.example/lib.js", origin := "https://cdn.example",
            method := "GET" }, none)] none)⟩

/-- C8. For every intercepted request whose origin differs from the
worker's own, the fetch handler returns without `respondWith`, performs no
cache or network operation, and leaves the caches as they were. -/
theorem fetch_cross_origin (selfOrigin : String) (net : Option Response) (req : Request)
    (cs : CacheStorage) (h : req.origin ≠ selfOrigin) :
    fetchHandler selfOrigin net req cs = ⟨cs, .passThrough, []⟩ := by
  simp [fetchHandler, h]

/-- C8, witness: a request to another origin. -/
theorem fetch_cross_origin_witness :
    fetchHandler "https://app.example" none
        { url := "https://cdn.example/lib.js", origin := "https://cdn.example", method := "GET" }
        [] = ⟨[], .passThrough, []⟩ :=
  fetch_cross_origin "https://app.example" none
    { url := "https://cdn.example/lib.js", origin := "https://cdn.example", method := "GET" }
    [] (by decide)

end SW

end Diotk
